import Mathlib

/-!
Verification of the plugin loader pipeline
(`pkg/plugins/manager/loader/loader.go`): a shallow embedding of the
loader's data model and operations, followed by theorems checking the
specification's claims about parent wiring, error handling, signature
validation bookkeeping, manifest reading/normalization and unload
preconditions.

External collaborators (asset paths, signature calculation/validation,
initializer, registry backends, process supervisor, storage, CDN checks,
filesystem) are modelled as oracle fields of an `Env` record; the loader's
own control flow is translated function-by-function from the source.
Go maps are embedded as association lists iterated in insertion order
(Go map iteration order is unspecified; the claims under study are either
order-insensitive or quantify over the materialized batch order).
-/

namespace GrafanaLoader

/-! ## String primitives

Structural-recursion implementations of the string operations the loader
uses (`strings.Split`, `strings.HasPrefix`, …), so that every definition
evaluates by kernel reduction. -/

/-- Whether the first list is an initial segment of the second. -/
def leadsWith : List Char → List Char → Bool
  | [], _ => true
  | _ :: _, [] => false
  | a :: as, b :: bs => a = b && leadsWith as bs

/-- Split a character list on one separator character; mirrors
`strings.Split` with a one-character separator (the empty input yields
one empty field). -/
def splitOnChar (c : Char) : List Char → List (List Char)
  | [] => [[]]
  | x :: xs =>
    let r := splitOnChar c xs
    if x = c then [] :: r
    else
      match r with
      | [] => [[x]]
      | h :: t => (x :: h) :: t

/-- `strings.Split(s, sep)` for a one-character separator. -/
def strSplitChar (s : String) (c : Char) : List String :=
  (splitOnChar c s.toList).map String.mk

/-- `strings.HasPrefix`. -/
def strStartsWith (s pre : String) : Bool := leadsWith pre.toList s.toList

/-- `strings.HasSuffix`. -/
def strEndsWith (s suf : String) : Bool :=
  leadsWith suf.toList.reverse s.toList.reverse

/-- Join a list of strings with a separator between the entries. -/
def joinWith (sep : String) : List String → String
  | [] => ""
  | [x] => x
  | x :: y :: xs => x ++ sep ++ joinWith sep (y :: xs)

/-- Locate the first occurrence of a non-empty pattern: the text before
it and the text after it. -/
def breakAt (pat : List Char) : List Char → Option (List Char × List Char)
  | [] => none
  | x :: xs =>
    if leadsWith pat (x :: xs) then some ([], (x :: xs).drop pat.length)
    else
      match breakAt pat xs with
      | none => none
      | some pp => some (x :: pp.1, pp.2)

/-! ## Path helpers (Go `path`/`filepath` on a unix platform) -/

/-- One step of Go `path.Clean`: process the split segments, dropping empty
and `.` segments and resolving `..` against the accumulated output. -/
def cleanSegsAux (rooted : Bool) : List String → List String → List String
  | acc, [] => acc.reverse
  | acc, s :: rest =>
    if s = "" || s = "." then cleanSegsAux rooted acc rest
    else if s = ".." then
      match acc with
      | [] => if rooted then cleanSegsAux rooted [] rest
              else cleanSegsAux rooted [".."] rest
      | a :: as =>
        if a = ".." then cleanSegsAux rooted (".." :: a :: as) rest
        else cleanSegsAux rooted as rest
    else cleanSegsAux rooted (s :: acc) rest

/-- Go `path.Clean` (equals `filepath.Clean` with `/` separators). -/
def pathClean (p : String) : String :=
  if p = "" then "." else
  let rooted := strStartsWith p "/"
  let segs := cleanSegsAux rooted [] (strSplitChar p '/')
  if segs.isEmpty then (if rooted then "/" else ".")
  else (if rooted then "/" else "") ++ joinWith "/" segs

/-- Go `path.Join`: join the non-empty elements with `/` and clean the
result; all-empty input yields the empty string. -/
def pathJoin (elems : List String) : String :=
  let ne := elems.filter (fun e => e ≠ "")
  if ne.isEmpty then "" else pathClean (joinWith "/" ne)

/-- Go `filepath.IsAbs` on unix. -/
def filepathIsAbs (p : String) : Bool := strStartsWith p "/"

/-- Go `filepath.Dir`: everything up to the final separator, cleaned;
`.` when the path holds no separator. -/
def filepathDir (p : String) : String :=
  let r := p.toList.reverse.dropWhile (fun c => c ≠ '/')
  pathClean (String.mk r.reverse)

/-- Go `filepath.Ext`: the suffix starting at the final dot of the final
path element; empty when that element holds no dot. -/
def filepathExt (p : String) : String :=
  let r := p.toList.reverse
  let lastElem := r.takeWhile (fun c => c ≠ '/')
  if lastElem.contains '.' then
    String.mk ('.' :: (r.takeWhile (fun c => c ≠ '.')).reverse)
  else ""

/-- ASCII lower-casing of one character (the manifest extension compare
only meets ASCII data). -/
def asciiLower (c : Char) : Char :=
  if 'A' ≤ c ∧ c ≤ 'Z' then Char.ofNat (c.toNat + 32) else c

/-- Go `strings.EqualFold`, restricted to ASCII folding. -/
def strEqualFold (a b : String) : Bool :=
  a.toList.map asciiLower = b.toList.map asciiLower

/-- Go `strings.Replace(s, old, new, 1)`: replace the first occurrence. -/
def replaceFirst (s old new : String) : String :=
  if old = "" then new ++ s
  else
    match breakAt old.toList s.toList with
    | none => s
    | some pp => String.mk pp.1 ++ new ++ String.mk pp.2

/-- Go `strings.ReplaceAll(s, "\\", "/")` as used for app sub-paths. -/
def backslashToSlash (s : String) : String :=
  joinWith "/" (strSplitChar s '\\')

/-- Go `filepath.Abs`: clean an absolute path, otherwise join it onto
the working directory. -/
def filepathAbs (cwd p : String) : String :=
  if filepathIsAbs p then pathClean p else pathJoin [cwd, p]

/-! ## Data model (`plugins` package records used by the loader) -/

/-- A UI include entry of a manifest. -/
structure Includes where
  name : String
  slug : String
  type : String
  defaultNav : Bool
  role : String
  uid : String
deriving DecidableEq

/-- A declared plugin dependency. -/
structure Dependency where
  id : String
deriving DecidableEq

/-- Manifest dependency block. -/
structure Dependencies where
  grafanaVersion : String
  plugins : List Dependency
deriving DecidableEq

/-- Logo asset paths. -/
structure Logos where
  small : String
  large : String
deriving DecidableEq

/-- One screenshot entry. -/
structure Screenshot where
  name : String
  path : String
deriving DecidableEq

/-- Manifest info block (the parts the loader touches). -/
structure Info where
  version : String
  logos : Logos
  screenshots : List Screenshot
deriving DecidableEq

/-- Parsed `plugin.json` manifest data. -/
structure JSONData where
  id : String
  type : String
  name : String
  info : Info
  dependencies : Dependencies
  includes : List Includes
deriving DecidableEq

/-- Modelled from the spec: the recognized plugin type set of the external
`plugins` package (`Type.IsValid`), e.g. panel / datasource / app /
renderer. -/
def typeIsValid (t : String) : Bool :=
  t = "app" || t = "datasource" || t = "panel" || t = "renderer"

/-- Plugin provenance class, assigned by the caller of Load. -/
inductive Class
  | core
  | bundled
  | external
deriving DecidableEq

/-- Signature validation error (`plugins.SignatureError`). -/
structure SignatureError where
  pluginID : String
  signatureStatus : String
deriving DecidableEq

/-- Signature calculation result (`plugins.Signature`). -/
structure Signature where
  status : String
  type : String
  signingOrg : String
deriving DecidableEq

/-- The runtime plugin record built by the loader. The Go struct links
parent and children by pointer; the embedding links them by the plugin's
directory key in the batch map. -/
structure Plugin where
  jsonData : JSONData
  pluginDir : String
  baseURL : String
  module : String
  pluginClass : Class
  signature : String
  signatureType : String
  signatureOrg : String
  signatureError : Option SignatureError := none
  parent : Option String := none
  children : List String := []
  defaultNavURL : String := ""
  includedInAppID : String := ""
deriving DecidableEq

/-- Plugin ID, read from the manifest data. -/
def Plugin.id (p : Plugin) : String := p.jsonData.id

/-- Modelled from the spec: `Plugin.IsApp` of the external `plugins`
package (app-typed plugin). -/
def Plugin.isApp (p : Plugin) : Bool := p.jsonData.type = "app"

/-- Modelled from the spec: `Plugin.IsRenderer` of the external `plugins`
package. -/
def Plugin.isRenderer (p : Plugin) : Bool := p.jsonData.type = "renderer"

/-- Modelled from the spec: `Plugin.IsCorePlugin` of the external
`plugins` package (core provenance class). -/
def Plugin.isCorePlugin (p : Plugin) : Bool := p.pluginClass = Class.core

/-- Modelled from the spec: `Plugin.IsExternalPlugin` of the external
`plugins` package (external provenance class). -/
def Plugin.isExternalPlugin (p : Plugin) : Bool := p.pluginClass = Class.external

/-- Modelled from the spec: `Includes.DashboardURLPath` of the external
`plugins` package — a dashboard include resolves to a `/d/<uid>` URL and
to the empty string when its UID is missing. -/
def Includes.dashboardURLPath (i : Includes) : String :=
  if i.uid = "" then "" else "/d/" ++ i.uid

/-- Modelled from the spec: `SignatureError.AsErrorCode` of the external
`plugins` package — the operator-facing error code derived
deterministically from the signature status. -/
def SignatureError.asErrorCode (e : SignatureError) : String :=
  if e.signatureStatus = "invalid" then "signatureInvalid"
  else if e.signatureStatus = "modified" then "signatureModified"
  else if e.signatureStatus = "unsigned" then "signatureMissing"
  else ""

/-- Operator-facing plugin error (`plugins.Error`). -/
structure PluginError where
  pluginID : String
  errorCode : String
deriving DecidableEq

/-! ## Environment: external collaborators and the filesystem -/

/-- Result of opening and JSON-decoding one manifest file. -/
inductive FileRead
  | noFile
  | unparsable
  | parsed (d : JSONData)
deriving DecidableEq

/-- Error taxonomy of the loader. The two named manifest errors embed
`ErrInvalidPluginJSONFilePath` and `ErrInvalidPluginJSON`; the remaining
constructors carry the opaque errors of collaborators. -/
inductive LoadErr
  | invalidPluginJSONFilePath
  | invalidPluginJSON
  | openError
  | decodeError
  | fsError (s : String)
  | initError (s : String)
  | duplicateID (s : String)
  | storageError (s : String)
  | startError (s : String)
  | stopError (s : String)
  | removeError (s : String)
  | pluginNotInstalled
  | uninstallCorePlugin
deriving DecidableEq

/-- The loader's external collaborators, modelled as oracles: CDN support
checks, signature calculation (`none` embeds a calculation failure) and
validation, asset path computation, the initializer, storage, process
supervisor and filesystem probes. -/
structure Env where
  cwd : String
  fs : String → FileRead
  cdnSupported : String → Bool
  signatureCalc : Plugin → Option Signature
  validate : Plugin → Option SignatureError
  assetBase : JSONData → Class → String → Except String String
  assetModule : JSONData → Class → String → Except String String
  relativeURL : Plugin → String → String → Except String String
  slugify : String → String
  fsExists : String → Except String Bool
  initRun : Plugin → Option String
  storageRegister : String → String → Option String
  processStart : String → Option String
  processStop : String → Option String
  storageRemove : String → Option String

/-! ## Manifest reading (`readPluginJSON`, `validatePluginJSON`) -/

/-- `validatePluginJSON`: reject manifests lacking a non-empty ID or a
recognized type (`ErrInvalidPluginJSON`). -/
def validatePluginJSON (data : JSONData) : Option LoadErr :=
  if data.id = "" || !typeIsValid data.type then some .invalidPluginJSON else none

/-- The post-parse normalization block of `readPluginJSON`: the legacy
pie-chart rename, the empty dependency list default, the wildcard Grafana
version default and the Viewer role default on UI includes. -/
def normalizeManifest (plugin : JSONData) : JSONData :=
  let plugin :=
    if plugin.id = "grafana-piechart-panel" then { plugin with name := "Pie Chart (old)" }
    else plugin
  let plugin :=
    if plugin.dependencies.plugins.length = 0 then
      { plugin with dependencies := { plugin.dependencies with plugins := [] } }
    else plugin
  let plugin :=
    if plugin.dependencies.grafanaVersion = "" then
      { plugin with dependencies := { plugin.dependencies with grafanaVersion := "*" } }
    else plugin
  { plugin with
      includes := plugin.includes.map (fun inc =>
        if inc.role = "" then { inc with role := "Viewer" } else inc) }

/-- `Loader.readPluginJSON`: extension check, open, decode, validation,
then normalization. -/
def readPluginJSON (env : Env) (pluginJSONPath : String) : Except LoadErr JSONData :=
  if !strEqualFold (filepathExt pluginJSONPath) ".json" then
    .error .invalidPluginJSONFilePath
  else
    match env.fs pluginJSONPath with
    | .noFile => .error .openError
    | .unparsable => .error .decodeError
    | .parsed plugin =>
      match validatePluginJSON plugin with
      | some e => .error e
      | none => .ok (normalizeManifest plugin)

/-! ## Batch discovery (`loadPlugins` lines 122–151) -/

/-- The `foundPlugins` map building loop: read each manifest, key it by
the directory of its absolute path, skip unreadable manifests and
duplicate directories. -/
def foundPluginsOf (env : Env) (pluginJSONPaths : List String) : List (String × JSONData) :=
  pluginJSONPaths.foldl (fun acc path =>
    match readPluginJSON env path with
    | .error _ => acc
    | .ok plugin =>
      let dir := filepathDir (filepathAbs env.cwd path)
      if (acc.find? (fun kv => kv.1 = dir)).isSome then acc
      else acc ++ [(dir, plugin)]) []

/-- `foundPlugins.stripDuplicates`: walk the found entries and delete the
ones whose plugin ID is already registered. -/
def stripDuplicates (existingPlugins : List String) (f : List (String × JSONData)) :
    List (String × JSONData) :=
  f.foldl (fun acc kv =>
    if existingPlugins.contains kv.2.id then
      acc.filter (fun kv' => kv'.1 ≠ kv.1)
    else acc) f

/-! ## Plugin construction and signature classification -/

/-- `defaultLogoPath`. -/
def defaultLogoPath (pluginType : String) : String :=
  "public/img/icn-" ++ pluginType ++ ".svg"

/-- Replace the screenshot list of a plugin record. -/
def withScreens (p : Plugin) (scs : List Screenshot) : Plugin :=
  { p with jsonData := { p.jsonData with
      info := { p.jsonData.info with screenshots := scs } } }

/-- The screenshot loop of `setImages`: screenshots are updated in place,
so each `RelativeURL` call observes the updates already made. -/
def setImagesShots (env : Env) (p : Plugin) :
    List Screenshot → List Screenshot → Except String Plugin
  | done, [] => .ok (withScreens p done)
  | done, sc :: rest =>
    match env.relativeURL (withScreens p (done ++ sc :: rest)) sc.path "" with
    | .error e =>
      .error ("screenshot " ++ toString done.length ++ " relative url: " ++ e)
    | .ok u => setImagesShots env p (done ++ [{ sc with path := u }]) rest

/-- `Loader.setImages`: rewrite logo and screenshot paths through the
asset-path collaborator; each step may fail. -/
def setImages (env : Env) (p : Plugin) : Except String Plugin :=
  match env.relativeURL p p.jsonData.info.logos.small (defaultLogoPath p.jsonData.type) with
  | .error e => .error ("logo: " ++ e)
  | .ok small =>
    let p := { p with jsonData := { p.jsonData with
                info := { p.jsonData.info with
                  logos := { p.jsonData.info.logos with small := small } } } }
    match env.relativeURL p p.jsonData.info.logos.large (defaultLogoPath p.jsonData.type) with
    | .error e => .error ("logo: " ++ e)
    | .ok large =>
      let p := { p with jsonData := { p.jsonData with
                  info := { p.jsonData.info with
                    logos := { p.jsonData.info.logos with large := large } } } }
      setImagesShots env p [] p.jsonData.info.screenshots

/-- `Loader.createPluginBase`: compute base and module URLs, build the
plugin record, set image URLs. -/
def createPluginBase (env : Env) (pluginJSON : JSONData) (cls : Class) (pluginDir : String) :
    Except String Plugin :=
  match env.assetBase pluginJSON cls pluginDir with
  | .error e => .error ("base url: " ++ e)
  | .ok baseURL =>
    match env.assetModule pluginJSON cls pluginDir with
    | .error e => .error ("module url: " ++ e)
    | .ok moduleURL =>
      setImages env
        { jsonData := pluginJSON
          pluginDir := pluginDir
          baseURL := baseURL
          module := moduleURL
          pluginClass := cls
          signature := ""
          signatureType := ""
          signatureOrg := "" }

/-- `Loader.createPluginsForLoading`: build each plugin base, assign the
signature state (CDN-supported plugins bypass calculation with a valid
status), key the result by plugin directory; base or calculation failures
skip the plugin. -/
def createPluginsForLoading (env : Env) (cls : Class) (found : List (String × JSONData)) :
    List (String × Plugin) :=
  found.foldl (fun acc kv =>
    match createPluginBase env kv.2 cls kv.1 with
    | .error _ => acc
    | .ok plugin =>
      let sig : Option Signature :=
        if env.cdnSupported plugin.id then
          some { status := "valid", type := "", signingOrg := "" }
        else env.signatureCalc plugin
      match sig with
      | none => acc
      | some sig =>
        acc ++ [(plugin.pluginDir,
          { plugin with
              signature := sig.status
              signatureType := sig.type
              signatureOrg := sig.signingOrg })]) []

/-! ## Dependency wiring (`loadPlugins` lines 156–173) -/

/-- The inner ancestor walk of the dependency wiring loop: accumulate path
segments from the root side and stop at the first accumulated prefix
occupied by a batch plugin. -/
def findParentGo (keys : List String) : String → List String → Option String
  | _, [] => none
  | pluginPath, ancestor :: rest =>
    let next := pathJoin [pluginPath, ancestor]
    if keys.contains next then some next else findParentGo keys next rest

/-- Parent lookup for one plugin directory: split off the final segment,
seed the accumulated path with `/` for absolute directories, walk. -/
def findParent (keys : List String) (pluginDir : String) : Option String :=
  findParentGo keys (if filepathIsAbs pluginDir then "/" else "")
    ((strSplitChar pluginDir '/').dropLast)

/-- The successive accumulated prefixes the ancestor walk tests, in walk
order (root side first). -/
def walkChainGo : String → List String → List String
  | _, [] => []
  | acc, s :: rest =>
    let next := pathJoin [acc, s]
    next :: walkChainGo next rest

/-- The tested ancestor-prefix chain of one plugin directory. -/
def walkChain (pluginDir : String) : List String :=
  walkChainGo (if filepathIsAbs pluginDir then "/" else "")
    ((strSplitChar pluginDir '/').dropLast)

/-- Association-map lookup on the batch. -/
def lookupMap (m : List (String × Plugin)) (k : String) : Option Plugin :=
  (m.find? (fun kv => kv.1 = k)).map (fun kv => kv.2)

/-- Association-map update on the batch. -/
def updateMap (m : List (String × Plugin)) (k : String) (p : Plugin) :
    List (String × Plugin) :=
  m.map (fun kv => if kv.1 = k then (kv.1, p) else kv)

/-- The dependency wiring loop: for every batch plugin, find the first
in-batch ancestor prefix, set it as parent and append the plugin to that
parent's children. -/
def wireDependencies (loaded : List (String × Plugin)) : List (String × Plugin) :=
  let keys := loaded.map (fun kv => kv.1)
  loaded.foldl (fun acc kv =>
    match lookupMap acc kv.1 with
    | none => acc
    | some plugin =>
      match findParent keys plugin.pluginDir with
      | none => acc
      | some parentDir =>
        let acc := updateMap acc kv.1 { plugin with parent := some parentDir }
        match lookupMap acc parentDir with
        | none => acc
        | some parentPlugin =>
          updateMap acc parentDir
            { parentPlugin with children := parentPlugin.children ++ [kv.1] }) loaded

/-! ## Per-plugin UI wiring (`setDefaultNavURL`, `configureAppChildPlugin`) -/

/-- The in-place slug default of the includes walk: an empty slug is
filled from the slugified include name. -/
def effInclude (env : Env) (inc : Includes) : Includes :=
  if inc.slug = "" then { inc with slug := env.slugify inc.name } else inc

/-- One step of the `setDefaultNavURL` includes walk: slugify an empty
slug in place, then let a `defaultNav` include overwrite the navigation
URL (a page include with its plugins page URL; a dashboard include with
its dashboard URL unless the UID is missing, which only warns). -/
def navIncludeStep (env : Env) (pid : String) (acc : String × List Includes)
    (inc0 : Includes) : String × List Includes :=
  let inc := effInclude env inc0
  let nav :=
    if !inc.defaultNav then acc.1
    else
      let nav :=
        if inc.type = "page" then pathJoin ["/plugins/", pid, "/page/", inc.slug]
        else acc.1
      if inc.type = "dashboard" then
        if inc.dashboardURLPath = "" then nav else inc.dashboardURLPath
      else nav
  (nav, acc.2 ++ [inc])

/-- `setDefaultNavURL`: walk the includes with `navIncludeStep`, writing
back the updated includes and the final navigation URL. -/
def setDefaultNavURL (env : Env) (p : Plugin) : Plugin :=
  let r := p.jsonData.includes.foldl (navIncludeStep env p.id) (p.defaultNavURL, [])
  { p with
      defaultNavURL := r.1
      jsonData := { p.jsonData with includes := r.2 } }

/-- The navigation URL one include contributes, if any: a page include
contributes its plugins page URL, a dashboard include its dashboard URL
unless the UID is missing; every other include contributes nothing. -/
def navCandidate (env : Env) (pid : String) (inc0 : Includes) : Option String :=
  let inc := effInclude env inc0
  if !inc.defaultNav then none
  else if inc.type = "page" then some (pathJoin ["/plugins/", pid, "/page/", inc.slug])
  else if inc.type = "dashboard" && inc.dashboardURLPath ≠ "" then
    some inc.dashboardURLPath
  else none

/-- The navigation URLs contributed by an include list, in order. -/
def navCandidates (env : Env) (pid : String) (incs : List Includes) : List String :=
  incs.filterMap (navCandidate env pid)

/-- Modelled from the spec: `util.JoinURLFragments` of the out-of-scope
util package, joining two URL fragments with exactly one `/` between
them (second fragment empty returns the first unchanged). -/
def joinURLFragments (a b : String) : String :=
  if b = "" then a
  else
    match strEndsWith a "/", strStartsWith b "/" with
    | true, true => a ++ String.mk (b.toList.drop 1)
    | false, false => a ++ "/" ++ b
    | _, _ => a ++ b

/-- `configureAppChildPlugin`: mark the child as included in the app,
inherit the parent's base URL and rewrite the module URL relative to the
parent directory. -/
def configureAppChildPlugin (parent child : Plugin) : Plugin :=
  if !parent.isApp then child
  else
    let appSubPath := backslashToSlash (replaceFirst child.pluginDir parent.pluginDir "")
    let child := { child with includedInAppID := parent.id, baseURL := parent.baseURL }
    if parent.isCorePlugin then
      { child with module := joinURLFragments ("app/plugins/app/" ++ parent.id) appSubPath ++ "/module" }
    else
      { child with module := joinURLFragments ("plugins/" ++ parent.id) appSubPath ++ "/module" }

/-- The two validated-plugin wiring steps of the validation loop: default
navigation URL for app plugins, then app-child configuration when the
parent is app-typed. -/
def navAndAppConfig (env : Env) (cur : List (String × Plugin)) (p : Plugin) : Plugin :=
  let p := if p.isApp then setDefaultNavURL env p else p
  match p.parent with
  | none => p
  | some parentDir =>
    match lookupMap cur parentDir with
    | none => p
    | some parentPlugin =>
      if parentPlugin.isApp then configureAppChildPlugin parentPlugin p else p

/-! ## The orchestrator error map (`Loader.errs`) -/

/-- Insert (overwrite) one keyed signature error, keeping key uniqueness. -/
def errsInsert (errs : List (String × SignatureError)) (id : String) (e : SignatureError) :
    List (String × SignatureError) :=
  errs.filter (fun kv => kv.1 ≠ id) ++ [(id, e)]

/-- Delete one keyed signature error. -/
def errsDelete (errs : List (String × SignatureError)) (id : String) :
    List (String × SignatureError) :=
  errs.filter (fun kv => kv.1 ≠ id)

/-- Lookup one keyed signature error. -/
def errsLookup (errs : List (String × SignatureError)) (id : String) :
    Option SignatureError :=
  (errs.find? (fun kv => kv.1 = id)).map (fun kv => kv.2)

/-- `Loader.PluginErrors`: snapshot the error map into operator-facing
records carrying the plugin ID and the code derived from the signature
status. -/
def PluginErrors (errs : List (String × SignatureError)) : List PluginError :=
  errs.map (fun kv => { pluginID := kv.2.pluginID, errorCode := kv.2.asErrorCode })

/-! ## Validation stage (`loadPlugins` lines 175–214) -/

/-- Result of the signature-validation loop: the batch map after in-place
updates, the verified plugins in loop order, the error map, and the fatal
error of a failed module existence probe (which aborts the whole Load). -/
structure VOut where
  cur : List (String × Plugin)
  verified : List Plugin
  errs : List (String × SignatureError)
  fatal : Option LoadErr
deriving DecidableEq

/-- The signature-validation loop: a validation failure records the error
by plugin ID and skips the plugin; success clears any stale error, probes
the `module.js` entry point for non-renderer non-core plugins (a probe
*error* aborts the whole Load; a missing file is only a logged warning,
suppressed for CDN plugins), runs the UI wiring and appends the plugin to
the verified batch. -/
def validateStage (env : Env) :
    List String → List (String × Plugin) → List Plugin →
    List (String × SignatureError) → VOut
  | [], cur, verified, errs => ⟨cur, verified, errs, none⟩
  | dirKey :: rest, cur, verified, errs =>
    match lookupMap cur dirKey with
    | none => validateStage env rest cur verified errs
    | some plugin =>
      match env.validate plugin with
      | some signingError =>
        validateStage env rest
          (updateMap cur dirKey { plugin with signatureError := some signingError })
          verified (errsInsert errs plugin.id signingError)
      | none =>
        let errs := errsDelete errs plugin.id
        if !plugin.isRenderer && !plugin.isCorePlugin then
          match env.fsExists (pathJoin [plugin.pluginDir, "module.js"]) with
          | .error e => ⟨cur, verified, errs, some (.fsError e)⟩
          | .ok _ =>
            let plugin := navAndAppConfig env cur plugin
            validateStage env rest (updateMap cur dirKey plugin)
              (verified ++ [plugin]) errs
        else
          let plugin := navAndAppConfig env cur plugin
          validateStage env rest (updateMap cur dirKey plugin)
            (verified ++ [plugin]) errs

/-! ## Initialization and registration stages (`loadPlugins` 216–234) -/

/-- The initialization loop: run the Initializer on each verified plugin
in order; the first failure aborts the whole Load with that error.
Role declaration failures are logged only and tracked nowhere. The
returned list holds the IDs the Initializer was invoked on. -/
def initStage (env : Env) : List Plugin → List String → List String × Option LoadErr
  | [], inited => (inited, none)
  | p :: rest, inited =>
    match env.initRun p with
    | some e => (inited ++ [p.id], some (.initError e))
    | none => initStage env rest (inited ++ [p.id])

/-- `Loader.load` for one plugin: registry add (fails on a present ID),
storage registration for external plugins, process start. The first
failing step aborts the remaining steps for this plugin. -/
def loadOne (env : Env) (reg : List Plugin) (sto : List (String × String))
    (sta : List String) (p : Plugin) :
    Option LoadErr × List Plugin × List (String × String) × List String :=
  if (reg.map Plugin.id).contains p.id then (some (.duplicateID p.id), reg, sto, sta)
  else
    let reg := reg ++ [p]
    let stoStep : Except LoadErr (List (String × String)) :=
      if p.isExternalPlugin then
        match env.storageRegister p.id p.pluginDir with
        | some e => .error (.storageError e)
        | none => .ok (sto ++ [(p.id, p.pluginDir)])
      else .ok sto
    match stoStep with
    | .error e => (some e, reg, sto, sta)
    | .ok sto =>
      match env.processStart p.id with
      | some e => (some (.startError e), reg, sto, sta)
      | none => (none, reg, sto, sta ++ [p.id])

/-- The registration loop: `load` each verified plugin; failures are
logged only and the loop continues. -/
def registerStage (env : Env) :
    List Plugin → List Plugin → List (String × String) → List String →
    List Plugin × List (String × String) × List String
  | [], reg, sto, sta => (reg, sto, sta)
  | p :: rest, reg, sto, sta =>
    let r := loadOne env reg sto sta p
    registerStage env rest r.2.1 r.2.2.1 r.2.2.2

/-! ## The Load orchestration (`Loader.loadPlugins`) -/

/-- The discovery-to-wiring prefix of `loadPlugins`: read manifests,
drop already-registered IDs, build the signature-classified plugins,
wire parents. -/
def pipelineWired (env : Env) (cls : Class) (paths : List String) (reg : List Plugin) :
    List (String × Plugin) :=
  wireDependencies (createPluginsForLoading env cls
    (stripDuplicates (reg.map Plugin.id) (foundPluginsOf env paths)))

/-- The pipeline through the validation stage. -/
def pipelineValidated (env : Env) (cls : Class) (paths : List String)
    (reg : List Plugin) (errs0 : List (String × SignatureError)) : VOut :=
  let wired := pipelineWired env cls paths reg
  validateStage env (wired.map (fun kv => kv.1)) wired [] errs0

deriving instance DecidableEq for Except

/-- Outcome of one `loadPlugins` call: the returned value, the registry
afterwards, the orchestrator error map afterwards, the IDs the
Initializer ran on, the successfully started IDs and the storage
registrations made by this call. -/
structure LoadOutcome where
  result : Except LoadErr (List Plugin)
  registry : List Plugin
  errs : List (String × SignatureError)
  initialized : List String
  started : List String
  storage : List (String × String)
deriving DecidableEq

/-- `Loader.loadPlugins`: discovery, duplicate stripping, construction,
wiring, validation (fatal on a failed existence probe), initialization
(fatal on the first Initializer error, before any registration), then
registration and start with logged-only failures. -/
def loadPlugins (env : Env) (cls : Class) (paths : List String)
    (reg : List Plugin) (errs0 : List (String × SignatureError)) : LoadOutcome :=
  let v := pipelineValidated env cls paths reg errs0
  match v.fatal with
  | some e =>
    { result := .error e, registry := reg, errs := v.errs
      initialized := [], started := [], storage := [] }
  | none =>
    let ini := initStage env v.verified []
    match ini.2 with
    | some e =>
      { result := .error e, registry := reg, errs := v.errs
        initialized := ini.1, started := [], storage := [] }
    | none =>
      let r := registerStage env v.verified reg [] []
      { result := .ok v.verified, registry := r.1, errs := v.errs
        initialized := ini.1, started := r.2.2, storage := r.2.1 }

/-! ## Unload (`Loader.Unload`, `Loader.unload`) -/

/-- Outcome of one `Unload` call: the returned value, the registry
afterwards, the IDs whose process stop succeeded and the storage entries
removed. -/
structure UnloadOutcome where
  result : Except LoadErr Unit
  registry : List Plugin
  stopped : List String
  storageRemoved : List String
deriving DecidableEq

/-- Registry lookup by plugin ID (`registry.Service.Plugin`). -/
def registryPlugin (reg : List Plugin) (pluginID : String) : Option Plugin :=
  reg.find? (fun p => p.id = pluginID)

/-- `Loader.unload`: stop the process, remove from the registry, remove
from storage; each step's failure aborts the remaining steps. -/
def unload (env : Env) (reg : List Plugin) (p : Plugin) : UnloadOutcome :=
  match env.processStop p.id with
  | some e => { result := .error (.stopError e), registry := reg, stopped := [], storageRemoved := [] }
  | none =>
    if !(reg.map Plugin.id).contains p.id then
      { result := .error (.removeError "plugin is not registered"), registry := reg
        stopped := [p.id], storageRemoved := [] }
    else
      let reg := reg.filter (fun q => q.id ≠ p.id)
      match env.storageRemove p.id with
      | some e => { result := .error (.storageError e), registry := reg
                    stopped := [p.id], storageRemoved := [] }
      | none => { result := .ok (), registry := reg
                  stopped := [p.id], storageRemoved := [p.id] }

/-- `Loader.Unload`: a missing plugin fails with the not-installed error,
a non-external plugin with the cannot-remove-core error; otherwise the
unload sequence runs. -/
def Unload (env : Env) (reg : List Plugin) (pluginID : String) : UnloadOutcome :=
  match registryPlugin reg pluginID with
  | none => { result := .error .pluginNotInstalled, registry := reg
              stopped := [], storageRemoved := [] }
  | some plugin =>
    if !plugin.isExternalPlugin then
      { result := .error .uninstallCorePlugin, registry := reg
        stopped := [], storageRemoved := [] }
    else unload env reg plugin

/-! ## Derived views used in the statements -/

/-- The two manifest failure modes the design groups under a malformed
manifest: undecodable content and content lacking a valid ID/type pair. -/
def isMalformedManifestErr : LoadErr → Bool
  | .decodeError => true
  | .invalidPluginJSON => true
  | _ => false

/-- The IDs of a successful Load result (`none` when Load errored). -/
def loadResultIDs (o : LoadOutcome) : Option (List String) :=
  match o.result with
  | .ok l => some (l.map Plugin.id)
  | .error _ => none

/-- Whether a filesystem probe returned without an error. -/
def probeOk (r : Except String Bool) : Bool :=
  match r with
  | .ok _ => true
  | .error _ => false

/-! ## Concrete manifests and environments for the scenario theorems -/

/-- A minimal well-formed manifest with the given ID and type. -/
def demoManifest (id ty : String) : JSONData :=
  { id := id, type := ty, name := id
    info := { version := "1.0", logos := { small := "", large := "" }, screenshots := [] }
    dependencies := { grafanaVersion := "*", plugins := [] }
    includes := [] }

/-- An environment in which every collaborator succeeds: no manifests on
disk, all signatures valid, assets present, all lifecycle calls succeed. -/
def demoEnv : Env where
  cwd := "/"
  fs := fun _ => .noFile
  cdnSupported := fun _ => false
  signatureCalc := fun _ => some { status := "valid", type := "grafana", signingOrg := "Grafana Labs" }
  validate := fun _ => none
  assetBase := fun _ _ dir => .ok ("public" ++ dir)
  assetModule := fun _ _ dir => .ok (dir ++ "/module")
  relativeURL := fun _ s d => .ok (if s = "" then d else s)
  slugify := fun s => s
  fsExists := fun _ => .ok true
  initRun := fun _ => none
  storageRegister := fun _ _ => none
  processStart := fun _ => none
  processStop := fun _ => none
  storageRemove := fun _ => none

/-- Environment holding the nested directories `/a`, `/a/b`, `/a/b/c` of
the parent-wiring scenario. -/
def envNest : Env := { demoEnv with
  fs := fun path =>
    if path = "/a/plugin.json" then .parsed (demoManifest "pa" "app")
    else if path = "/a/b/plugin.json" then .parsed (demoManifest "pb" "panel")
    else if path = "/a/b/c/plugin.json" then .parsed (demoManifest "pc" "panel")
    else .noFile }

/-- The manifest paths of the nested-directory scenario. -/
def nestPaths : List String :=
  ["/a/plugin.json", "/a/b/plugin.json", "/a/b/c/plugin.json"]

/-- The nested-directory batch after dependency wiring. -/
def batchNest : List (String × Plugin) :=
  pipelineWired envNest Class.external nestPaths []

/-- A placeholder plugin record used as a list-indexing default. -/
def dummyPlugin : Plugin :=
  { jsonData := demoManifest "" ""
    pluginDir := ""
    baseURL := ""
    module := ""
    pluginClass := Class.external
    signature := ""
    signatureType := ""
    signatureOrg := "" }

/-- Environment of the initialization-failure scenario: three flat
plugins, the Initializer failing on the second. -/
def envInit : Env := { demoEnv with
  fs := fun path =>
    if path = "/x/a/plugin.json" then .parsed (demoManifest "p1" "datasource")
    else if path = "/x/b/plugin.json" then .parsed (demoManifest "p2" "panel")
    else if path = "/x/c/plugin.json" then .parsed (demoManifest "p3" "app")
    else .noFile
  initRun := fun p => if p.id = "p2" then some "init failed" else none }

/-- The manifest paths of the initialization-failure scenario. -/
def initPaths : List String :=
  ["/x/a/plugin.json", "/x/b/plugin.json", "/x/c/plugin.json"]

/-- The verified batch of the initialization-failure scenario. -/
def initVerified : List Plugin :=
  (pipelineValidated envInit Class.external initPaths [] []).verified

/-- Environment of the duplicate-ID scenario: two different directories
declaring the same fresh plugin ID. -/
def envDup : Env := { demoEnv with
  fs := fun path =>
    if path = "/d/a/plugin.json" then .parsed (demoManifest "dup" "panel")
    else if path = "/d/b/plugin.json" then .parsed (demoManifest "dup" "panel")
    else .noFile }

/-- The manifest paths of the duplicate-ID scenario. -/
def dupPaths : List String := ["/d/a/plugin.json", "/d/b/plugin.json"]

/-- A concrete external plugin used by the registration witnesses. -/
def regPlugin : Plugin :=
  { dummyPlugin with jsonData := demoManifest "x" "panel", pluginDir := "/r/x" }

/-- Environment in which spawning any plugin process fails. -/
def envStartFail : Env := { demoEnv with
  fs := fun path =>
    if path = "/r/x/plugin.json" then .parsed (demoManifest "x" "panel") else .noFile
  processStart := fun _ => some "spawn error" }

/-- A registry holding one registered core plugin, for the Unload
precondition scenarios. -/
def regWithCore : List Plugin :=
  [{ dummyPlugin with jsonData := demoManifest "core1" "panel", pluginClass := Class.core }]

/-- Environment of the manifest-error scenarios: one manifest missing its
ID, one undecodable manifest. -/
def envManifest : Env := { demoEnv with
  fs := fun path =>
    if path = "/m/noid/plugin.json" then .parsed (demoManifest "" "panel")
    else if path = "/m/garbled/plugin.json" then .unparsable
    else .noFile }

/-- A page include flagged as default navigation. -/
def pageInclude (nm sl : String) : Includes :=
  { name := nm, slug := sl, type := "page", defaultNav := true, role := "Viewer", uid := "" }

/-- Environment of the navigation-URL scenario: one app plugin with two
default-navigation page includes. -/
def envNav : Env := { demoEnv with
  fs := fun path =>
    if path = "/n/app/plugin.json" then
      .parsed { demoManifest "app1" "app" with
                  includes := [pageInclude "first" "x", pageInclude "second" "y"] }
    else .noFile }

/-- Environment of the asset-probe scenarios: one plugin whose
`module.js` existence probe errors. -/
def envProbe : Env := { demoEnv with
  fs := fun path =>
    if path = "/q/p/plugin.json" then .parsed (demoManifest "q1" "panel") else .noFile
  fsExists := fun _ => .error "io failure" }

/-- Environment of the missing-asset scenario: one plugin whose
`module.js` is reported missing (probe succeeds, file absent). -/
def envMissing : Env := { demoEnv with
  fs := fun path =>
    if path = "/q/m/plugin.json" then .parsed (demoManifest "m1" "panel") else .noFile
  fsExists := fun _ => .ok false }

/-- Environment of the signature-rejection scenario: one plugin whose
signature calculates to the invalid status; validation rejects exactly
the invalid status and reports the plugin ID with it. -/
def envSigBad : Env := { demoEnv with
  fs := fun path =>
    if path = "/s/a/plugin.json" then .parsed (demoManifest "sig1" "panel") else .noFile
  signatureCalc := fun _ => some { status := "invalid", type := "", signingOrg := "" }
  validate := fun p =>
    if p.signature = "invalid" then
      some { pluginID := p.id, signatureStatus := p.signature }
    else none }

/-- The signature-rejection environment after the plugin's signature has
become valid again. -/
def envSigGood : Env := { envSigBad with
  signatureCalc := fun _ => some { status := "valid", type := "grafana", signingOrg := "Grafana Labs" } }

/-- The error map left by the failing signature batch. -/
def sigErrsAfterBad : List (String × SignatureError) :=
  (loadPlugins envSigBad Class.external ["/s/a/plugin.json"] [] []).errs

/-- The app plugin of the navigation-URL witness, carrying one page
include flagged as default navigation. -/
def navDemoPlugin : Plugin :=
  { dummyPlugin with
      jsonData := { demoManifest "app1" "app" with
        includes := [pageInclude "first" "x", pageInclude "second" "y"] } }

/-- The plugins returned by the nested-directory Load call. -/
def nestVs : List Plugin :=
  match (loadPlugins envNest Class.external nestPaths [] []).result with
  | .ok l => l
  | .error _ => []

/-- The wired batch of the signature-rejection scenario. -/
def sigWired : List (String × Plugin) :=
  pipelineWired envSigBad Class.external ["/s/a/plugin.json"] []

/-- The invalid-signature plugin of that batch. -/
def sigP : Plugin := (lookupMap sigWired "/s/a").getD dummyPlugin

/-- The signature error its validation produces. -/
def sigSe : SignatureError :=
  (envSigBad.validate sigP).getD { pluginID := "", signatureStatus := "" }

/-- The wired batch of the recovered signature scenario. -/
def sigWired2 : List (String × Plugin) :=
  pipelineWired envSigGood Class.external ["/s/a/plugin.json"] []

/-- The now-valid plugin of the recovered batch. -/
def sigP2 : Plugin := (lookupMap sigWired2 "/s/a").getD dummyPlugin

/-! ## Helper lemmas -/

/-- The ancestor walk returns the first tested prefix present among the
batch keys: it agrees with a first-match search over the tested chain. -/
theorem findParentGo_eq_find? (keys : List String) :
    ∀ (anc : List String) (acc : String),
      findParentGo keys acc anc =
        (walkChainGo acc anc).find? (fun a => keys.contains a) := by
  intro anc
  induction anc with
  | nil => intro acc; rfl
  | cons s rest ih =>
    intro acc
    by_cases hm : pathJoin [acc, s] ∈ keys
    · simp [findParentGo, walkChainGo, hm]
    · simp [findParentGo, walkChainGo, hm, ih]

/-! ## C1: parent assignment during dependency wiring -/

/-- C1 (corrected): for the batch `/a`, `/a/b`, `/a/b/c` discovered
together, the plugin at `/a/b/c` is assigned the plugin at `/a` as
parent, even though `/a/b` is an in-batch ancestor directory that is
strictly deeper — refuting the claim that the nearest (deepest) in-batch
ancestor becomes the parent. -/
theorem c1_deepest_ancestor_refuted :
    (batchNest.map (fun kv => kv.1)).contains "/a/b" = true ∧
    (lookupMap batchNest "/a/b/c").map Plugin.parent = some (some "/a") ∧
    (lookupMap batchNest "/a/b/c").map Plugin.parent ≠ some (some "/a/b") := by
  refine ⟨by decide, by decide, by decide⟩

/-- C1 (amended): during dependency wiring the parent assigned to a
plugin is the plugin occupying the outermost (shallowest) ancestor
directory occupied in the same batch: the ancestor walk tests the
accumulated prefixes from the root side and stops at the first hit, a
plugin with no in-batch ancestor stays without a parent, and in the
`/a`, `/a/b`, `/a/b/c` batch both `/a/b` and `/a/b/c` get `/a` as parent
while `/a` gets none. -/
theorem c1_parent_is_outermost_in_batch_ancestor :
    (∀ keys dir, findParent keys dir =
      (walkChain dir).find? (fun a => keys.contains a)) ∧
    (∀ keys dir, findParent keys dir = none ↔
      ∀ a ∈ walkChain dir, keys.contains a = false) ∧
    (lookupMap batchNest "/a/b").map Plugin.parent = some (some "/a") ∧
    (lookupMap batchNest "/a/b/c").map Plugin.parent = some (some "/a") ∧
    (lookupMap batchNest "/a").map Plugin.parent = some none := by
  have hmain : ∀ keys dir, findParent keys dir =
      (walkChain dir).find? (fun a => keys.contains a) := by
    intro keys dir
    unfold findParent walkChain
    exact findParentGo_eq_find? keys _ _
  refine ⟨hmain, ?_, by decide, by decide, by decide⟩
  intro keys dir
  rw [hmain, List.find?_eq_none]
  constructor
  · intro h a ha
    have hc := h a ha
    simpa using hc
  · intro h a ha
    have hc := h a ha
    simpa using hc

/-- Witness for C1: the characterization evaluated at the concrete batch
keys and the directory `/a/b/c`. -/
theorem c1_witness :
    findParent ["/a", "/a/b"] "/a/b/c" =
      (walkChain "/a/b/c").find? (fun a => (["/a", "/a/b"] : List String).contains a) :=
  c1_parent_is_outermost_in_batch_ancestor.1 ["/a", "/a/b"] "/a/b/c"

/-! ## C2: an Initializer failure aborts the batch -/

/-- C2 (corrected): with three flat plugins and the Initializer failing
on the second, Load returns that error and the Initializer never runs on
the third — but the first plugin is *not* left registered: the registry
is untouched, because registration only starts after every
initialization has succeeded. -/
theorem c2_first_plugin_not_registered_counterexample :
    (loadPlugins envInit Class.external initPaths [] []).result =
      .error (.initError "init failed") ∧
    (loadPlugins envInit Class.external initPaths [] []).registry = [] ∧
    (loadPlugins envInit Class.external initPaths [] []).initialized = ["p1", "p2"] := by
  refine ⟨by decide, by decide, by decide⟩

/-- C2 (amended): if the Initializer fails on the second of three
verified plugins, Load returns that error, the Initializer has run on
the first and second plugins only (the third is never processed), and no
plugin of the batch is registered, started or placed in storage — the
registry holds exactly what it held before the call; only plugins
registered by earlier calls remain registered. -/
theorem c2_init_failure_aborts_before_any_registration
    (env : Env) (cls : Class) (paths : List String) (reg : List Plugin)
    (errs0 : List (String × SignatureError)) (p1 p2 p3 : Plugin) (e : String)
    (hv : (pipelineValidated env cls paths reg errs0).verified = [p1, p2, p3])
    (hfatal : (pipelineValidated env cls paths reg errs0).fatal = none)
    (h1 : env.initRun p1 = none)
    (h2 : env.initRun p2 = some e) :
    (loadPlugins env cls paths reg errs0).result = .error (.initError e) ∧
    (loadPlugins env cls paths reg errs0).registry = reg ∧
    (loadPlugins env cls paths reg errs0).initialized = [p1.id, p2.id] ∧
    (loadPlugins env cls paths reg errs0).started = [] ∧
    (loadPlugins env cls paths reg errs0).storage = [] := by
  simp only [loadPlugins]
  rw [hfatal, hv]
  simp [initStage, h1, h2]

/-- Witness for C2 at the concrete three-plugin environment. -/
theorem c2_witness :
    envInit.initRun (initVerified.getD 1 dummyPlugin) = some "init failed" ∧
    (loadPlugins envInit Class.external initPaths [] []).registry = [] := by
  refine ⟨by decide, ?_⟩
  have h := c2_init_failure_aborts_before_any_registration envInit Class.external
    initPaths [] [] (initVerified.getD 0 dummyPlugin) (initVerified.getD 1 dummyPlugin)
    (initVerified.getD 2 dummyPlugin) "init failed"
    (by decide) (by decide) (by decide) (by decide)
  exact h.2.1

/-! ## C3: registration-stage failures -/

/-- C3 (corrected): with two same-ID plugins in one batch the second
registry Add fails, yet Load still returns successfully with both
plugins in its result, and the registry holds only the first — refuting
the claim that a failed Add makes the whole Load call return that
error. -/
theorem c3_add_failure_does_not_abort_load_counterexample :
    loadResultIDs (loadPlugins envDup Class.external dupPaths [] []) =
      some ["dup", "dup"] ∧
    (loadPlugins envDup Class.external dupPaths [] []).registry.map Plugin.id =
      ["dup"] := by
  refine ⟨by decide, by decide⟩

/-- C3 (amended): every failure inside the per-plugin registration step
is logged only. A failed registry Add leaves the registry, storage and
started set untouched for that plugin and skips its remaining steps; a
failed process start leaves the plugin registered but not started; and
whenever the pipeline reaches the registration stage, Load returns the
verified plugins regardless of any registration or start failures. -/
theorem c3_registration_failures_logged_only :
    (∀ env reg sto sta (p : Plugin),
      (reg.map Plugin.id).contains p.id = true →
      loadOne env reg sto sta p = (some (.duplicateID p.id), reg, sto, sta)) ∧
    (∀ env reg sto sta (p : Plugin) e,
      (reg.map Plugin.id).contains p.id = false →
      (p.isExternalPlugin = true → env.storageRegister p.id p.pluginDir = none) →
      env.processStart p.id = some e →
      loadOne env reg sto sta p =
        (some (.startError e), reg ++ [p],
          if p.isExternalPlugin then sto ++ [(p.id, p.pluginDir)] else sto, sta)) ∧
    (∀ env cls paths reg errs0,
      (pipelineValidated env cls paths reg errs0).fatal = none →
      (initStage env (pipelineValidated env cls paths reg errs0).verified []).2 = none →
      (loadPlugins env cls paths reg errs0).result =
        .ok (pipelineValidated env cls paths reg errs0).verified) := by
  refine ⟨?_, ?_, ?_⟩
  · intro env reg sto sta p h
    unfold loadOne
    rw [h]
    simp
  · intro env reg sto sta p e h hsto hstart
    unfold loadOne
    rw [h]
    by_cases hext : p.isExternalPlugin = true
    · simp [hext, hsto hext, hstart]
    · simp only [Bool.not_eq_true] at hext
      simp [hext, hstart]
  · intro env cls paths reg errs0 hfatal hini
    simp only [loadPlugins]
    rw [hfatal]
    simp [hini]

/-- Witness for C3: the three parts applied at concrete registries,
plugins and environments. -/
theorem c3_witness :
    loadOne demoEnv [regPlugin] [] [] regPlugin =
      (some (.duplicateID "x"), [regPlugin], [], []) ∧
    loadOne envStartFail [] [] [] regPlugin =
      (some (.startError "spawn error"), [regPlugin], [("x", "/r/x")], []) ∧
    (loadPlugins envNest Class.external nestPaths [] []).result =
      .ok (pipelineValidated envNest Class.external nestPaths [] []).verified := by
  refine ⟨c3_registration_failures_logged_only.1 demoEnv [regPlugin] [] [] regPlugin (by decide),
    ?_, c3_registration_failures_logged_only.2.2 envNest Class.external nestPaths [] []
      (by decide) (by decide)⟩
  have h := c3_registration_failures_logged_only.2.1 envStartFail [] [] [] regPlugin
    "spawn error" (by decide) (fun _ => by decide) (by decide)
  simpa using h

/-! ## C5: Unload preconditions -/

/-- C5 (confirmed): Unload on an ID absent from the registry fails with
the distinct not-installed error, Unload on a core-class plugin fails
with the distinct cannot-remove-core error, the two error kinds differ,
and in both failure cases the registry is unchanged and no stop,
deregister or storage-removal step runs. -/
theorem c5_unload_preconditions (env : Env) (reg : List Plugin) (pid : String) :
    (registryPlugin reg pid = none →
      Unload env reg pid =
        { result := .error .pluginNotInstalled, registry := reg
          stopped := [], storageRemoved := [] }) ∧
    (∀ p, registryPlugin reg pid = some p → p.pluginClass = Class.core →
      Unload env reg pid =
        { result := .error .uninstallCorePlugin, registry := reg
          stopped := [], storageRemoved := [] }) ∧
    LoadErr.pluginNotInstalled ≠ LoadErr.uninstallCorePlugin := by
  refine ⟨?_, ?_, by decide⟩
  · intro h
    simp [Unload, h]
  · intro p h hc
    simp [Unload, h, Plugin.isExternalPlugin, hc]

/-- Witness for C5: a registry holding one core plugin, probed with a
missing ID and with the core plugin's ID. -/
theorem c5_witness :
    Unload demoEnv regWithCore "ghost" =
      { result := .error .pluginNotInstalled, registry := regWithCore
        stopped := [], storageRemoved := [] } ∧
    Unload demoEnv regWithCore "core1" =
      { result := .error .uninstallCorePlugin, registry := regWithCore
        stopped := [], storageRemoved := [] } :=
  ⟨(c5_unload_preconditions demoEnv regWithCore "ghost").1 (by decide),
   (c5_unload_preconditions demoEnv regWithCore "core1").2.1
     { dummyPlugin with jsonData := demoManifest "core1" "panel", pluginClass := Class.core }
     (by decide) (by decide)⟩

/-! ## C6: manifest reader error conditions -/

/-- `validatePluginJSON` only ever produces the invalid-manifest error. -/
theorem validatePluginJSON_some {d : JSONData} {e : LoadErr}
    (h : validatePluginJSON d = some e) : e = LoadErr.invalidPluginJSON := by
  unfold validatePluginJSON at h
  split at h
  · exact (Option.some.inj h).symm
  · exact Option.noConfusion h

/-- A manifest lacking a non-empty ID or a recognized type is rejected
by `validatePluginJSON`. -/
theorem validatePluginJSON_of_bad {d : JSONData}
    (h : d.id = "" ∨ typeIsValid d.type = false) :
    validatePluginJSON d = some LoadErr.invalidPluginJSON := by
  unfold validatePluginJSON
  rcases h with h | h
  · simp [h]
  · simp [h]

/-- A path whose extension does not fold-compare to `.json` fails with
the invalid-path error. -/
theorem readPluginJSON_badext (env : Env) (path : String)
    (h : strEqualFold (filepathExt path) ".json" = false) :
    readPluginJSON env path = .error .invalidPluginJSONFilePath := by
  unfold readPluginJSON
  rw [h]
  simp

/-- With a matching extension, `readPluginJSON` is the open/decode/
validate/normalize cascade. -/
theorem readPluginJSON_goodext (env : Env) (path : String)
    (hx : strEqualFold (filepathExt path) ".json" = true) :
    readPluginJSON env path =
      (match env.fs path with
        | .noFile => .error .openError
        | .unparsable => .error .decodeError
        | .parsed plugin =>
          match validatePluginJSON plugin with
          | some e => .error e
          | none => .ok (normalizeManifest plugin)) := by
  unfold readPluginJSON
  rw [hx]
  simp

/-- C6 (confirmed): `readPluginJSON` fails with the invalid-path error
exactly when the path's extension does not case-insensitively match
`.json`; undecodable content, or parsed content that does not carry both
a non-empty ID and a recognized type, fails with a malformed-manifest
error; and a manifest missing its ID contributes nothing to the batch. -/
theorem c6_manifest_reader_errors (env : Env) (path : String) :
    ((readPluginJSON env path = .error .invalidPluginJSONFilePath) ↔
      strEqualFold (filepathExt path) ".json" = false) ∧
    (strEqualFold (filepathExt path) ".json" = true →
      (env.fs path = .unparsable ∨
        (∃ d, env.fs path = .parsed d ∧ (d.id = "" ∨ typeIsValid d.type = false))) →
      ∃ er, readPluginJSON env path = .error er ∧ isMalformedManifestErr er = true) ∧
    (∀ d, env.fs path = .parsed d → d.id = "" → foundPluginsOf env [path] = []) := by
  refine ⟨⟨?_, readPluginJSON_badext env path⟩, ?_, ?_⟩
  · intro h
    by_contra hx
    simp only [Bool.not_eq_false] at hx
    rw [readPluginJSON_goodext env path hx] at h
    revert h
    cases hf : env.fs path with
    | noFile => simp
    | unparsable => simp
    | parsed d =>
      cases hv : validatePluginJSON d with
      | none => simp [hv]
      | some er =>
        have he := validatePluginJSON_some hv
        subst he
        simp [hv]
  · intro hx hcase
    rw [readPluginJSON_goodext env path hx]
    rcases hcase with hunp | ⟨d, hd, hbad⟩
    · rw [hunp]
      exact ⟨.decodeError, rfl, rfl⟩
    · rw [hd]
      dsimp only
      rw [validatePluginJSON_of_bad hbad]
      exact ⟨.invalidPluginJSON, rfl, rfl⟩
  · intro d hd hid
    have herr : ∃ er, readPluginJSON env path = .error er := by
      by_cases hx : strEqualFold (filepathExt path) ".json" = true
      · refine ⟨.invalidPluginJSON, ?_⟩
        rw [readPluginJSON_goodext env path hx, hd]
        dsimp only
        rw [validatePluginJSON_of_bad (Or.inl hid)]
      · simp only [Bool.not_eq_true] at hx
        exact ⟨.invalidPluginJSONFilePath, readPluginJSON_badext env path hx⟩
    obtain ⟨er, her⟩ := herr
    unfold foundPluginsOf
    simp [her]

/-- Witness for C6: the wrong-extension path, the ID-less manifest and
the undecodable manifest of the concrete manifest environment. -/
theorem c6_witness :
    readPluginJSON envManifest "/m/noid/plugin.txt" =
      .error .invalidPluginJSONFilePath ∧
    foundPluginsOf envManifest ["/m/noid/plugin.json"] = [] ∧
    (∃ er, readPluginJSON envManifest "/m/garbled/plugin.json" = .error er ∧
      isMalformedManifestErr er = true) :=
  ⟨(c6_manifest_reader_errors envManifest "/m/noid/plugin.txt").1.mpr (by decide),
   (c6_manifest_reader_errors envManifest "/m/noid/plugin.json").2.2
     (demoManifest "" "panel") (by decide) (by decide),
   (c6_manifest_reader_errors envManifest "/m/garbled/plugin.json").2.1
     (by decide) (Or.inl (by decide))⟩

/-! ## C7: post-parse normalization -/

/-- The include role default is idempotent. -/
theorem roleDefault_idem (inc : Includes) :
    (fun i : Includes => if i.role = "" then { i with role := "Viewer" } else i)
      ((fun i : Includes => if i.role = "" then { i with role := "Viewer" } else i) inc) =
    (fun i : Includes => if i.role = "" then { i with role := "Viewer" } else i) inc := by
  by_cases h : inc.role = "" <;> simp [h]

/-- C7 (confirmed): the normalization applied by `readPluginJSON` is
idempotent; an empty dependency list stays the explicit empty list, an
empty Grafana version constraint becomes the wildcard, every include of
a normalized manifest carries a non-empty role (the Viewer default when
it had none), and every manifest `readPluginJSON` returns is a fixed
point of the normalization. -/
theorem c7_normalization_idempotent :
    (∀ d, normalizeManifest (normalizeManifest d) = normalizeManifest d) ∧
    (∀ d, d.dependencies.plugins = [] →
      (normalizeManifest d).dependencies.plugins = []) ∧
    (∀ d, (normalizeManifest d).dependencies.grafanaVersion =
      (if d.dependencies.grafanaVersion = "" then "*" else d.dependencies.grafanaVersion)) ∧
    (∀ d, (normalizeManifest d).includes =
      d.includes.map (fun i => if i.role = "" then { i with role := "Viewer" } else i)) ∧
    (∀ d, ∀ inc ∈ (normalizeManifest d).includes, inc.role ≠ "") ∧
    (∀ env path d, readPluginJSON env path = .ok d → normalizeManifest d = d) := by
  have hidem : ∀ d, normalizeManifest (normalizeManifest d) = normalizeManifest d := by
    intro d
    unfold normalizeManifest
    by_cases h1 : d.id = "grafana-piechart-panel" <;>
      by_cases h2 : d.dependencies.plugins.length = 0 <;>
        by_cases h3 : d.dependencies.grafanaVersion = "" <;>
          simp [h1, h2, h3, List.map_map, Function.comp_def]
    all_goals
      intro a _ hra
      by_cases hr : a.role = ""
      · rw [if_pos hr] at hra
        simp at hra
      · rw [if_neg hr] at hra
        exact absurd hra hr
  refine ⟨hidem, ?_, ?_, ?_, ?_, ?_⟩
  · intro d h
    unfold normalizeManifest
    by_cases h1 : d.id = "grafana-piechart-panel" <;>
      by_cases h3 : d.dependencies.grafanaVersion = "" <;>
        simp [h1, h3, h]
  · intro d
    unfold normalizeManifest
    by_cases h1 : d.id = "grafana-piechart-panel" <;>
      by_cases h2 : d.dependencies.plugins.length = 0 <;>
        by_cases h3 : d.dependencies.grafanaVersion = "" <;>
          simp [h1, h2, h3]
  · intro d
    unfold normalizeManifest
    by_cases h1 : d.id = "grafana-piechart-panel" <;>
      by_cases h2 : d.dependencies.plugins.length = 0 <;>
        by_cases h3 : d.dependencies.grafanaVersion = "" <;>
          simp [h1, h2, h3]
  · intro d inc hmem
    have hinc : (normalizeManifest d).includes =
        d.includes.map (fun i => if i.role = "" then { i with role := "Viewer" } else i) := by
      unfold normalizeManifest
      by_cases h1 : d.id = "grafana-piechart-panel" <;>
        by_cases h2 : d.dependencies.plugins.length = 0 <;>
          by_cases h3 : d.dependencies.grafanaVersion = "" <;>
            simp [h1, h2, h3]
    rw [hinc] at hmem
    obtain ⟨i0, _, hi0⟩ := List.mem_map.mp hmem
    by_cases hr : i0.role = ""
    · rw [← hi0]
      simp [hr]
    · rw [← hi0]
      simp [hr]
  · intro env path d h
    by_cases hx : strEqualFold (filepathExt path) ".json" = true
    · rw [readPluginJSON_goodext env path hx] at h
      revert h
      cases hf : env.fs path with
      | noFile => intro h; exact Except.noConfusion h
      | unparsable => intro h; exact Except.noConfusion h
      | parsed d0 =>
        cases hv : validatePluginJSON d0 with
        | some er => intro h; simp [hv] at h
        | none =>
          intro h
          simp [hv] at h
          rw [← h]
          exact hidem d0
    · simp only [Bool.not_eq_true] at hx
      rw [readPluginJSON_badext env path hx] at h
      exact Except.noConfusion h

/-- Witness for C7: the fixed-point property at the empty-version,
role-less manifest read from a concrete file. -/
theorem c7_witness :
    normalizeManifest (normalizeManifest (demoManifest "p1" "panel")) =
      normalizeManifest (demoManifest "p1" "panel") ∧
    normalizeManifest
        { demoManifest "p1" "panel" with
            dependencies := { grafanaVersion := "", plugins := [] } } =
      { demoManifest "p1" "panel" with
          dependencies := { grafanaVersion := "*", plugins := [] } } :=
  ⟨c7_normalization_idempotent.1 (demoManifest "p1" "panel"), by decide⟩

/-! ## C10: same-batch duplicate IDs survive duplicate stripping -/

/-- Closed form of the `stripDuplicates` deletion loop: starting from any
collection, it keeps exactly the entries whose key is hit by no
already-registered entry of the iterated list. -/
theorem stripDuplicates_foldl (existing : List String) :
    ∀ (l acc : List (String × JSONData)),
      l.foldl (fun acc kv =>
        if existing.contains kv.2.id then acc.filter (fun kv' => kv'.1 ≠ kv.1)
        else acc) acc =
      acc.filter (fun kv' =>
        l.all (fun kv => !(existing.contains kv.2.id && kv'.1 = kv.1))) := by
  intro l
  induction l with
  | nil =>
    intro acc
    simp
  | cons kv l ih =>
    intro acc
    simp only [List.foldl_cons]
    by_cases hb : existing.contains kv.2.id = true
    · rw [if_pos hb, ih, List.filter_filter]
      apply List.filter_congr
      intro x _
      rw [List.all_cons, hb]
      simp [Bool.and_comm]
    · have hbf : existing.contains kv.2.id = false := by
        simpa using hb
      rw [if_neg hb, ih]
      apply List.filter_congr
      intro x _
      rw [List.all_cons, hbf]
      simp

/-- `stripDuplicates` on a key-unique collection drops exactly the
entries whose plugin ID is already registered. -/
theorem stripDuplicates_eq_filter (existing : List String)
    (f : List (String × JSONData)) (hnodup : (f.map Prod.fst).Nodup) :
    stripDuplicates existing f =
      f.filter (fun kv => !existing.contains kv.2.id) := by
  unfold stripDuplicates
  rw [stripDuplicates_foldl]
  apply List.filter_congr
  intro x hx
  by_cases hb : existing.contains x.2.id = true
  · rw [hb]
    simp only [Bool.not_true]
    refine List.all_eq_false.mpr ⟨x, hx, ?_⟩
    simpa using hb
  · have hbf : existing.contains x.2.id = false := by simpa using hb
    rw [hbf]
    simp only [Bool.not_false]
    refine List.all_eq_true.mpr ?_
    intro kv hkv
    by_cases hk : x.1 = kv.1
    · have hx2 : x = kv := List.inj_on_of_nodup_map hnodup hx hkv hk
      subst hx2
      simpa using hbf
    · simp [hk]

/-- The discovery loop keys every found plugin by a directory not yet in
the collection, so the keys are unique. -/
theorem foundPluginsOf_keys_nodup (env : Env) (paths : List String) :
    ((foundPluginsOf env paths).map Prod.fst).Nodup := by
  suffices h : ∀ (ps : List String) (acc : List (String × JSONData)),
      (acc.map Prod.fst).Nodup →
      ((ps.foldl (fun acc path =>
        match readPluginJSON env path with
        | .error _ => acc
        | .ok plugin =>
          let dir := filepathDir (filepathAbs env.cwd path)
          if (acc.find? (fun kv => kv.1 = dir)).isSome then acc
          else acc ++ [(dir, plugin)]) acc).map Prod.fst).Nodup by
    exact h paths [] (by simp)
  intro ps
  induction ps with
  | nil => intro acc h; exact h
  | cons path rest ih =>
    intro acc h
    simp only [List.foldl_cons]
    cases hr : readPluginJSON env path with
    | error e =>
      simp only [hr]
      exact ih acc h
    | ok plugin =>
      simp only [hr]
      by_cases hfind :
          (acc.find? (fun kv => kv.1 = filepathDir (filepathAbs env.cwd path))).isSome = true
      · simp only [hfind, if_true]
        exact ih acc h
      · simp only [hfind, Bool.false_eq_true, if_false]
        apply ih
        rw [List.map_append, List.nodup_append]
        refine ⟨h, by simp, ?_⟩
        intro a ha hb
        have hadir : a = filepathDir (filepathAbs env.cwd path) := by
          simpa using hb
        subst hadir
        have hnone : acc.find?
            (fun kv => kv.1 = filepathDir (filepathAbs env.cwd path)) = none := by
          exact Option.not_isSome_iff_eq_none.mp (by simpa using hfind)
        obtain ⟨kv, hkv, hkva⟩ := List.mem_map.mp ha
        have := List.find?_eq_none.mp hnone kv hkv
        simp [hkva] at this

/-- C10 (confirmed): duplicate stripping removes exactly the entries
whose ID was registered before the call (discovery keys are unique, so
nothing else is touched); two same-batch directories declaring one fresh
ID both survive: in the concrete duplicate-ID batch both plugins are
initialized and both appear in Load's returned slice. -/
theorem c10_same_batch_duplicate_ids_survive :
    (∀ existing (f : List (String × JSONData)), (f.map Prod.fst).Nodup →
      stripDuplicates existing f =
        f.filter (fun kv => !existing.contains kv.2.id)) ∧
    (∀ env paths, ((foundPluginsOf env paths).map Prod.fst).Nodup) ∧
    loadResultIDs (loadPlugins envDup Class.external dupPaths [] []) =
      some ["dup", "dup"] ∧
    (loadPlugins envDup Class.external dupPaths [] []).initialized =
      ["dup", "dup"] :=
  ⟨stripDuplicates_eq_filter, foundPluginsOf_keys_nodup, by decide, by decide⟩

/-- Witness for C10: stripping a two-entry batch with one pre-registered
ID keeps exactly the fresh entry. -/
theorem c10_witness :
    stripDuplicates ["reg1"]
        [("/w/a", demoManifest "reg1" "panel"), ("/w/b", demoManifest "new1" "panel")] =
      [("/w/b", demoManifest "new1" "panel")] :=
  (c10_same_batch_duplicate_ids_survive.1 ["reg1"]
    [("/w/a", demoManifest "reg1" "panel"), ("/w/b", demoManifest "new1" "panel")]
    (by decide)).trans (by decide)

/-! ## Stability of per-plugin updates -/

/-- `setDefaultNavURL` touches only the navigation URL and the include
slugs. -/
theorem setDefaultNavURL_stable (env : Env) (p : Plugin) :
    (setDefaultNavURL env p).jsonData.id = p.jsonData.id ∧
    (setDefaultNavURL env p).jsonData.type = p.jsonData.type ∧
    (setDefaultNavURL env p).pluginClass = p.pluginClass ∧
    (setDefaultNavURL env p).pluginDir = p.pluginDir ∧
    (setDefaultNavURL env p).parent = p.parent :=
  ⟨rfl, rfl, rfl, rfl, rfl⟩

/-- `configureAppChildPlugin` touches only the included-in-app marker,
the base URL and the module URL of the child. -/
theorem configureAppChildPlugin_stable (parent child : Plugin) :
    (configureAppChildPlugin parent child).jsonData = child.jsonData ∧
    (configureAppChildPlugin parent child).pluginClass = child.pluginClass ∧
    (configureAppChildPlugin parent child).pluginDir = child.pluginDir ∧
    (configureAppChildPlugin parent child).parent = child.parent ∧
    (configureAppChildPlugin parent child).defaultNavURL = child.defaultNavURL := by
  unfold configureAppChildPlugin
  by_cases h1 : parent.isApp = true <;>
    by_cases h2 : parent.isCorePlugin = true <;>
      simp [h1, h2]

/-- The validated-plugin wiring leaves identity, type, class, directory
and parent untouched. -/
theorem navAndAppConfig_stable (env : Env) (cur : List (String × Plugin)) (p : Plugin) :
    (navAndAppConfig env cur p).jsonData.id = p.jsonData.id ∧
    (navAndAppConfig env cur p).jsonData.type = p.jsonData.type ∧
    (navAndAppConfig env cur p).pluginClass = p.pluginClass ∧
    (navAndAppConfig env cur p).pluginDir = p.pluginDir := by
  unfold navAndAppConfig
  have hq : ∀ q : Plugin,
      q.jsonData.id = p.jsonData.id → q.jsonData.type = p.jsonData.type →
      q.pluginClass = p.pluginClass → q.pluginDir = p.pluginDir →
      ∀ pd, (match lookupMap cur pd with
        | none => q
        | some parentPlugin =>
          if parentPlugin.isApp then configureAppChildPlugin parentPlugin q
          else q).jsonData.id = p.jsonData.id ∧
        (match lookupMap cur pd with
        | none => q
        | some parentPlugin =>
          if parentPlugin.isApp then configureAppChildPlugin parentPlugin q
          else q).jsonData.type = p.jsonData.type ∧
        (match lookupMap cur pd with
        | none => q
        | some parentPlugin =>
          if parentPlugin.isApp then configureAppChildPlugin parentPlugin q
          else q).pluginClass = p.pluginClass ∧
        (match lookupMap cur pd with
        | none => q
        | some parentPlugin =>
          if parentPlugin.isApp then configureAppChildPlugin parentPlugin q
          else q).pluginDir = p.pluginDir := by
    intro q h1 h2 h3 h4 pd
    cases hl : lookupMap cur pd with
    | none => exact ⟨h1, h2, h3, h4⟩
    | some pp =>
      by_cases ha : pp.isApp = true
      · have hc := configureAppChildPlugin_stable pp q
        simp only [ha, if_true]
        exact ⟨hc.1 ▸ h1, hc.1 ▸ h2, hc.2.1 ▸ h3, hc.2.2.1 ▸ h4⟩
      · simp only [ha, Bool.false_eq_true, if_false]
        exact ⟨h1, h2, h3, h4⟩
  by_cases happ : p.isApp = true
  · simp only [happ, if_true]
    cases hpar : (setDefaultNavURL env p).parent with
    | none => exact setDefaultNavURL_stable env p |>.imp id (fun h => h.imp id (fun h => h.imp id (fun h => h.1)))
    | some pd =>
      have hs := setDefaultNavURL_stable env p
      exact hq (setDefaultNavURL env p) hs.1 hs.2.1 hs.2.2.1 hs.2.2.2.1 pd
  · simp only [happ, Bool.false_eq_true, if_false]
    cases hpar : p.parent with
    | none => exact ⟨rfl, rfl, rfl, rfl⟩
    | some pd => exact hq p rfl rfl rfl rfl pd

/-- Lookup after updating a different key is unchanged. -/
theorem lookupMap_updateMap_ne (m : List (String × Plugin)) (k : String)
    (p : Plugin) (d : String) (h : d ≠ k) :
    lookupMap (updateMap m k p) d = lookupMap m d := by
  induction m with
  | nil => rfl
  | cons kv m ih =>
    unfold lookupMap updateMap at ih ⊢
    simp only [List.map_cons]
    by_cases hk : kv.1 = k
    · have hkd : ¬(kv.1 = d) := by
        rw [hk]
        exact fun hdk => h hdk.symm
      rw [if_pos hk, List.find?_cons, List.find?_cons]
      simp only [decide_eq_false hkd]
      exact ih
    · rw [if_neg hk, List.find?_cons, List.find?_cons]
      by_cases hd : kv.1 = d
      · simp [hd]
      · simp only [decide_eq_false hd]
        exact ih

/-- Lookup of the updated key returns the written value whenever the key
was present. -/
theorem lookupMap_updateMap_self (m : List (String × Plugin)) (k : String) (p : Plugin) :
    lookupMap (updateMap m k p) k = (lookupMap m k).map (fun _ => p) := by
  induction m with
  | nil => rfl
  | cons kv m ih =>
    unfold lookupMap updateMap at ih ⊢
    simp only [List.map_cons]
    by_cases hk : kv.1 = k
    · rw [if_pos hk, List.find?_cons, List.find?_cons]
      simp [hk]
    · rw [if_neg hk, List.find?_cons, List.find?_cons]
      simp only [decide_eq_false hk]
      exact ih

/-! ## Validation-stage invariants -/

/-- The validation loop only appends to the verified batch. -/
theorem validateStage_verified_prefix (env : Env) :
    ∀ (keys : List String) (cur : List (String × Plugin)) (verified : List Plugin)
      (errs : List (String × SignatureError)),
      ∃ t, (validateStage env keys cur verified errs).verified = verified ++ t := by
  intro keys
  induction keys with
  | nil =>
    intro cur verified errs
    exact ⟨[], by simp [validateStage]⟩
  | cons k rest ih =>
    intro cur verified errs
    simp only [validateStage]
    cases hl : lookupMap cur k with
    | none => exact ih cur verified errs
    | some plugin =>
      dsimp only
      cases hv : env.validate plugin with
      | some se => exact ih _ verified _
      | none =>
        dsimp only
        by_cases hrc : (!plugin.isRenderer && !plugin.isCorePlugin) = true
        · rw [if_pos hrc]
          cases hfs : env.fsExists (pathJoin [plugin.pluginDir, "module.js"]) with
          | error e => exact ⟨[], by simp⟩
          | ok b =>
            obtain ⟨t, ht⟩ := ih (updateMap cur k (navAndAppConfig env cur plugin))
              (verified ++ [navAndAppConfig env cur plugin]) (errsDelete errs plugin.id)
            exact ⟨navAndAppConfig env cur plugin :: t, by rw [ht]; simp⟩
        · rw [if_neg hrc]
          obtain ⟨t, ht⟩ := ih (updateMap cur k (navAndAppConfig env cur plugin))
            (verified ++ [navAndAppConfig env cur plugin]) (errsDelete errs plugin.id)
          exact ⟨navAndAppConfig env cur plugin :: t, by rw [ht]; simp⟩

/-- Transfer of the everywhere-probe-succeeds hypothesis across the
in-place update the loop makes at the processed key. -/
theorem probeHyp_update (env : Env) (cur : List (String × Plugin)) (k : String)
    (plugin p' : Plugin) (rest : List String)
    (hl : lookupMap cur k = some plugin)
    (hp' : p'.pluginDir = plugin.pluginDir)
    (h : ∀ d q, d ∈ k :: rest → lookupMap cur d = some q →
      probeOk (env.fsExists (pathJoin [q.pluginDir, "module.js"])) = true) :
    ∀ d q, d ∈ rest → lookupMap (updateMap cur k p') d = some q →
      probeOk (env.fsExists (pathJoin [q.pluginDir, "module.js"])) = true := by
  intro d q hd hq
  by_cases hdk : d = k
  · subst hdk
    rw [lookupMap_updateMap_self, hl] at hq
    have hq2 : p' = q := by simpa using hq
    subst hq2
    rw [hp']
    exact h d plugin (List.mem_cons_self _ _) hl
  · rw [lookupMap_updateMap_ne _ _ _ _ hdk] at hq
    exact h d q (List.mem_cons_of_mem _ hd) hq

/-- When the existence probe succeeds for every plugin of the batch
(present or missing alike), the validation loop never aborts. -/
theorem validateStage_fatal_none (env : Env) :
    ∀ (keys : List String) (cur : List (String × Plugin)) (verified : List Plugin)
      (errs : List (String × SignatureError)),
      (∀ d q, d ∈ keys → lookupMap cur d = some q →
        probeOk (env.fsExists (pathJoin [q.pluginDir, "module.js"])) = true) →
      (validateStage env keys cur verified errs).fatal = none := by
  intro keys
  induction keys with
  | nil => intro cur verified errs _; rfl
  | cons k rest ih =>
    intro cur verified errs h
    simp only [validateStage]
    cases hl : lookupMap cur k with
    | none =>
      exact ih cur verified errs (fun d q hd hq => h d q (List.mem_cons_of_mem _ hd) hq)
    | some plugin =>
      dsimp only
      cases hv : env.validate plugin with
      | some se =>
        exact ih _ verified _
          (probeHyp_update env cur k plugin { plugin with signatureError := some se } rest hl rfl h)
      | none =>
        dsimp only
        by_cases hrc : (!plugin.isRenderer && !plugin.isCorePlugin) = true
        · rw [if_pos hrc]
          cases hfs : env.fsExists (pathJoin [plugin.pluginDir, "module.js"]) with
          | error e =>
            exfalso
            have hp := h k plugin (List.mem_cons_self _ _) hl
            rw [hfs] at hp
            simp [probeOk] at hp
          | ok b =>
            exact ih _ _ _
              (probeHyp_update env cur k plugin (navAndAppConfig env cur plugin) rest hl
                (navAndAppConfig_stable env cur plugin).2.2.2 h)
        · rw [if_neg hrc]
          exact ih _ _ _
            (probeHyp_update env cur k plugin (navAndAppConfig env cur plugin) rest hl
              (navAndAppConfig_stable env cur plugin).2.2.2 h)

/-- A batch plugin that passes signature validation reaches the verified
batch whenever no probe aborts the loop: some verified plugin carries its
ID. -/
theorem validateStage_verified_mem (env : Env) :
    ∀ (keys : List String) (cur : List (String × Plugin)) (verified : List Plugin)
      (errs : List (String × SignatureError)) (d : String) (p : Plugin),
      keys.Nodup → d ∈ keys → lookupMap cur d = some p → env.validate p = none →
      (∀ d' q, d' ∈ keys → lookupMap cur d' = some q →
        probeOk (env.fsExists (pathJoin [q.pluginDir, "module.js"])) = true) →
      ∃ q ∈ (validateStage env keys cur verified errs).verified, q.id = p.id := by
  intro keys
  induction keys with
  | nil =>
    intro cur verified errs d p _ hd
    exact absurd hd (List.not_mem_nil _)
  | cons k rest ih =>
    intro cur verified errs d p hnd hd hlp hval h
    simp only [validateStage]
    by_cases hdk : d = k
    · subst hdk
      rw [hlp]
      dsimp only
      rw [hval]
      dsimp only
      by_cases hrc : (!p.isRenderer && !p.isCorePlugin) = true
      · rw [if_pos hrc]
        cases hfs : env.fsExists (pathJoin [p.pluginDir, "module.js"]) with
        | error e =>
          exfalso
          have hp := h d p (List.mem_cons_self _ _) hlp
          rw [hfs] at hp
          simp [probeOk] at hp
        | ok b =>
          obtain ⟨t, ht⟩ := validateStage_verified_prefix env rest
            (updateMap cur d (navAndAppConfig env cur p))
            (verified ++ [navAndAppConfig env cur p]) (errsDelete errs p.id)
          refine ⟨navAndAppConfig env cur p, ?_, (navAndAppConfig_stable env cur p).1⟩
          rw [ht]
          exact List.mem_append_left _
            (List.mem_append_right _ (List.mem_singleton_self _))
      · rw [if_neg hrc]
        obtain ⟨t, ht⟩ := validateStage_verified_prefix env rest
          (updateMap cur d (navAndAppConfig env cur p))
          (verified ++ [navAndAppConfig env cur p]) (errsDelete errs p.id)
        refine ⟨navAndAppConfig env cur p, ?_, (navAndAppConfig_stable env cur p).1⟩
        rw [ht]
        exact List.mem_append_left _
          (List.mem_append_right _ (List.mem_singleton_self _))
    · have hdr : d ∈ rest := by
        rcases List.mem_cons.mp hd with h1 | h1
        · exact absurd h1 hdk
        · exact h1
      have hnd' : rest.Nodup := (List.nodup_cons.mp hnd).2
      cases hl : lookupMap cur k with
      | none =>
        exact ih cur verified errs d p hnd' hdr hlp hval
          (fun d' q hd' hq => h d' q (List.mem_cons_of_mem _ hd') hq)
      | some plugin =>
        dsimp only
        have hlp' : ∀ (p' : Plugin), lookupMap (updateMap cur k p') d = some p :=
          fun p' => by rw [lookupMap_updateMap_ne _ _ _ _ hdk]; exact hlp
        cases hv : env.validate plugin with
        | some se =>
          exact ih _ verified _ d p hnd' hdr (hlp' _) hval
            (probeHyp_update env cur k plugin { plugin with signatureError := some se } rest hl rfl h)
        | none =>
          dsimp only
          by_cases hrc : (!plugin.isRenderer && !plugin.isCorePlugin) = true
          · rw [if_pos hrc]
            cases hfs : env.fsExists (pathJoin [plugin.pluginDir, "module.js"]) with
            | error e =>
              exfalso
              have hp := h k plugin (List.mem_cons_self _ _) hl
              rw [hfs] at hp
              simp [probeOk] at hp
            | ok b =>
              exact ih _ _ _ d p hnd' hdr (hlp' _) hval
                (probeHyp_update env cur k plugin (navAndAppConfig env cur plugin) rest hl
                  (navAndAppConfig_stable env cur plugin).2.2.2 h)
          · rw [if_neg hrc]
            exact ih _ _ _ d p hnd' hdr (hlp' _) hval
              (probeHyp_update env cur k plugin (navAndAppConfig env cur plugin) rest hl
                (navAndAppConfig_stable env cur plugin).2.2.2 h)

/-! ## C9: the entry-point asset check -/

/-- C9 (corrected): when the existence probe itself fails (an I/O error,
not a missing file), Load returns that error — refuting the claim that
the module.js check never causes Load to return an error. -/
theorem c9_probe_error_aborts_load_counterexample :
    (loadPlugins envProbe Class.external ["/q/p/plugin.json"] [] []).result =
      .error (.fsError "io failure") := by
  decide

/-- C9 (amended): the module.js check is non-fatal whenever the probe
itself answers (present or missing alike): no probe answer ever aborts
the validation loop, and a validated plugin whose module.js is reported
missing still reaches the verified batch — only an *error* from the
probe aborts the Load call. -/
theorem c9_missing_asset_nonfatal :
    (∀ (env : Env) keys cur verified errs,
      (∀ d q, d ∈ keys → lookupMap cur d = some q →
        probeOk (env.fsExists (pathJoin [q.pluginDir, "module.js"])) = true) →
      (validateStage env keys cur verified errs).fatal = none) ∧
    (∀ (env : Env) keys cur verified errs d p,
      keys.Nodup → d ∈ keys → lookupMap cur d = some p →
      env.validate p = none →
      env.fsExists (pathJoin [p.pluginDir, "module.js"]) = .ok false →
      (∀ d' q, d' ∈ keys → lookupMap cur d' = some q →
        probeOk (env.fsExists (pathJoin [q.pluginDir, "module.js"])) = true) →
      ∃ q ∈ (validateStage env keys cur verified errs).verified, q.id = p.id) ∧
    (∀ (env : Env) cls paths reg errs0,
      (∀ d q, d ∈ (pipelineWired env cls paths reg).map (fun kv => kv.1) →
        lookupMap (pipelineWired env cls paths reg) d = some q →
        probeOk (env.fsExists (pathJoin [q.pluginDir, "module.js"])) = true) →
      (pipelineValidated env cls paths reg errs0).fatal = none) := by
  refine ⟨?_, ?_, ?_⟩
  · intro env keys cur verified errs h
    exact validateStage_fatal_none env keys cur verified errs h
  · intro env keys cur verified errs d p hnd hd hlp hval _ h
    exact validateStage_verified_mem env keys cur verified errs d p hnd hd hlp hval h
  · intro env cls paths reg errs0 h
    exact validateStage_fatal_none env _ _ _ _ h

/-- Witness for C9: the concrete missing-module plugin passes through
validation and the loop ends without a fatal error. -/
theorem c9_witness :
    (pipelineValidated envMissing Class.external ["/q/m/plugin.json"] [] []).fatal = none ∧
    ∃ q ∈ (pipelineValidated envMissing Class.external ["/q/m/plugin.json"] [] []).verified,
      q.id = ((lookupMap (pipelineWired envMissing Class.external ["/q/m/plugin.json"] [])
        "/q/m").getD dummyPlugin).id := by
  constructor
  · exact c9_missing_asset_nonfatal.2.2 envMissing Class.external ["/q/m/plugin.json"] [] []
      (fun _ _ _ _ => rfl)
  · have h := c9_missing_asset_nonfatal.2.1 envMissing
      ((pipelineWired envMissing Class.external ["/q/m/plugin.json"] []).map (fun kv => kv.1))
      (pipelineWired envMissing Class.external ["/q/m/plugin.json"] []) [] [] "/q/m"
      ((lookupMap (pipelineWired envMissing Class.external ["/q/m/plugin.json"] [])
         "/q/m").getD dummyPlugin)
      (by decide) (by decide) (by decide) (by decide) (by decide) (fun _ _ _ _ => rfl)
    simpa [pipelineValidated] using h

/-! ## C8: the default navigation URL -/

/-- `getD` after a cons: the last element wins, the head serves as the
new fallback. -/
theorem getLastD_cons :
    ∀ (l : List String) (u nav0 : String),
      ((u :: l).getLast?).getD nav0 = (l.getLast?).getD u := by
  intro l
  induction l with
  | nil => intro u nav0; rfl
  | cons b t ih =>
    intro u nav0
    rw [List.getLast?_cons_cons, ih b nav0, ih b u]

/-- The navigation component of one walk step is the include's candidate
URL, falling back to the accumulated URL. -/
theorem navIncludeStep_fst (env : Env) (pid : String) (acc : String × List Includes)
    (inc0 : Includes) :
    (navIncludeStep env pid acc inc0).1 = (navCandidate env pid inc0).getD acc.1 := by
  unfold navIncludeStep navCandidate
  by_cases h1 : (effInclude env inc0).defaultNav
  · by_cases h2 : (effInclude env inc0).type = "page"
    · have h3 : ¬((effInclude env inc0).type = "dashboard") := by rw [h2]; decide
      simp [h1, h2, h3]
    · by_cases h3 : (effInclude env inc0).type = "dashboard"
      · by_cases h4 : (effInclude env inc0).dashboardURLPath = "" <;>
          simp [h1, h2, h3, h4]
      · simp [h1, h2, h3]
  · simp [h1]

/-- Closed form of the includes walk: the navigation URL after the walk
is the last candidate URL, or the initial URL when no include
contributes one. -/
theorem navFoldl (env : Env) (pid : String) :
    ∀ (incs : List Includes) (nav0 : String) (done : List Includes),
      (incs.foldl (navIncludeStep env pid) (nav0, done)).1 =
        ((incs.filterMap (navCandidate env pid)).getLast?).getD nav0 := by
  intro incs
  induction incs with
  | nil => intro nav0 done; simp
  | cons inc rest ih =>
    intro nav0 done
    rw [List.foldl_cons, List.filterMap_cons]
    have hs : navIncludeStep env pid (nav0, done) inc =
        ((navCandidate env pid inc).getD nav0, done ++ [effInclude env inc]) :=
      Prod.ext (navIncludeStep_fst env pid (nav0, done) inc) rfl
    rw [hs]
    cases hc : navCandidate env pid inc with
    | none =>
      rw [ih]
      rfl
    | some u =>
      rw [ih, getLastD_cons]
      rfl

/-- The navigation URL `setDefaultNavURL` computes is the last candidate
of the includes list, with the previous URL as fallback. -/
theorem setDefaultNavURL_navURL (env : Env) (p : Plugin) :
    (setDefaultNavURL env p).defaultNavURL =
      ((navCandidates env p.id p.jsonData.includes).getLast?).getD p.defaultNavURL := by
  unfold setDefaultNavURL navCandidates
  exact navFoldl env p.id p.jsonData.includes p.defaultNavURL []

/-- The screenshot walk leaves the navigation URL and the plugin type
untouched. -/
theorem setImagesShots_ok (env : Env) (q : Plugin) :
    ∀ (rem done : List Screenshot) (p : Plugin),
      setImagesShots env q done rem = .ok p →
      p.defaultNavURL = q.defaultNavURL ∧ p.jsonData.type = q.jsonData.type := by
  intro rem
  induction rem with
  | nil =>
    intro done p h
    have h2 : withScreens q done = p := Except.ok.inj h
    rw [← h2]
    exact ⟨rfl, rfl⟩
  | cons sc rest ih =>
    intro done p
    simp only [setImagesShots]
    cases hr : env.relativeURL (withScreens q (done ++ sc :: rest)) sc.path "" with
    | error e => intro h; exact Except.noConfusion h
    | ok u => intro h; exact ih _ p h

/-- `setImages` leaves the navigation URL and the plugin type
untouched. -/
theorem setImages_ok (env : Env) (q p : Plugin) (h : setImages env q = .ok p) :
    p.defaultNavURL = q.defaultNavURL ∧ p.jsonData.type = q.jsonData.type := by
  unfold setImages at h
  split at h
  · exact Except.noConfusion h
  · try dsimp only at h
    split at h
    · exact Except.noConfusion h
    · try dsimp only at h
      have hx := setImagesShots_ok env _ _ _ p h
      exact ⟨hx.1, hx.2⟩

/-- A plugin base starts with an empty navigation URL and the manifest's
type. -/
theorem createPluginBase_ok (env : Env) (j : JSONData) (cls : Class) (dir : String)
    (p : Plugin) (h : createPluginBase env j cls dir = .ok p) :
    p.defaultNavURL = "" ∧ p.jsonData.type = j.type := by
  unfold createPluginBase at h
  split at h
  · exact Except.noConfusion h
  · split at h
    · exact Except.noConfusion h
    · exact setImages_ok env _ p h

/-- Every plugin the construction stage emits has an empty navigation
URL. -/
theorem createPluginsForLoading_navURL (env : Env) (cls : Class) :
    ∀ (found : List (String × JSONData)),
      ∀ kv ∈ createPluginsForLoading env cls found, kv.2.defaultNavURL = "" := by
  intro found
  unfold createPluginsForLoading
  suffices hs : ∀ (l : List (String × JSONData)) (acc : List (String × Plugin)),
      (∀ kv ∈ acc, kv.2.defaultNavURL = "") →
      ∀ kv ∈ l.foldl (fun acc kv =>
        match createPluginBase env kv.2 cls kv.1 with
        | .error _ => acc
        | .ok plugin =>
          let sig : Option Signature :=
            if env.cdnSupported plugin.id then
              some { status := "valid", type := "", signingOrg := "" }
            else env.signatureCalc plugin
          match sig with
          | none => acc
          | some sig =>
            acc ++ [(plugin.pluginDir,
              { plugin with
                  signature := sig.status
                  signatureType := sig.type
                  signatureOrg := sig.signingOrg })]) acc, kv.2.defaultNavURL = "" by
    exact hs found [] (by simp)
  intro l
  induction l with
  | nil => intro acc hacc; exact hacc
  | cons kv0 l ih =>
    intro acc hacc
    rw [List.foldl_cons]
    cases hcb : createPluginBase env kv0.2 cls kv0.1 with
    | error e =>
      dsimp only
      exact ih acc hacc
    | ok plugin =>
      dsimp only
      cases hsig : (if env.cdnSupported plugin.id then
          some { status := "valid", type := "", signingOrg := "" }
        else env.signatureCalc plugin : Option Signature) with
      | none => exact ih acc hacc
      | some sig =>
        apply ih
        intro kv hkv
        rcases List.mem_append.mp hkv with hkv | hkv
        · exact hacc kv hkv
        · rw [List.mem_singleton.mp hkv]
          exact (createPluginBase_ok env kv0.2 cls kv0.1 plugin hcb).1

/-- A successful lookup returns the value of some stored entry. -/
theorem lookupMap_mem (m : List (String × Plugin)) (k : String) (p : Plugin)
    (h : lookupMap m k = some p) : ∃ kv ∈ m, kv.2 = p := by
  unfold lookupMap at h
  cases hf : m.find? (fun kv => kv.1 = k) with
  | none => rw [hf] at h; exact Option.noConfusion h
  | some kv =>
    rw [hf] at h
    exact ⟨kv, List.mem_of_find?_eq_some hf, by simpa using h⟩

/-- An entry-wise property survives an update that writes a value
satisfying it. -/
theorem updateMap_forall (P : Plugin → Prop) (m : List (String × Plugin))
    (k : String) (p' : Plugin) (h : ∀ kv ∈ m, P kv.2) (hp : P p') :
    ∀ kv ∈ updateMap m k p', P kv.2 := by
  intro kv hkv
  unfold updateMap at hkv
  obtain ⟨kv0, hkv0, heq⟩ := List.mem_map.mp hkv
  by_cases hk : kv0.1 = k
  · rw [if_pos hk] at heq
    rw [← heq]
    exact hp
  · rw [if_neg hk] at heq
    rw [← heq]
    exact h kv0 hkv0

/-- An entry-wise property that survives parent assignment and child
appending survives dependency wiring. -/
theorem wireDependencies_forall (P : Plugin → Prop)
    (hpar : ∀ p pd, P p → P { p with parent := some pd })
    (hch : ∀ p d, P p → P { p with children := p.children ++ [d] }) :
    ∀ (loaded : List (String × Plugin)), (∀ kv ∈ loaded, P kv.2) →
      ∀ kv ∈ wireDependencies loaded, P kv.2 := by
  intro loaded h
  unfold wireDependencies
  suffices hs : ∀ (l acc : List (String × Plugin)), (∀ kv ∈ acc, P kv.2) →
      ∀ kv ∈ l.foldl (fun acc kv =>
        match lookupMap acc kv.1 with
        | none => acc
        | some plugin =>
          match findParent (loaded.map (fun kv => kv.1)) plugin.pluginDir with
          | none => acc
          | some parentDir =>
            let acc := updateMap acc kv.1 { plugin with parent := some parentDir }
            match lookupMap acc parentDir with
            | none => acc
            | some parentPlugin =>
              updateMap acc parentDir
                { parentPlugin with children := parentPlugin.children ++ [kv.1] }) acc,
        P kv.2 by
    exact hs loaded loaded h
  intro l
  induction l with
  | nil => intro acc hacc; exact hacc
  | cons kv0 l ih =>
    intro acc hacc
    rw [List.foldl_cons]
    cases hl : lookupMap acc kv0.1 with
    | none =>
      dsimp only
      exact ih acc hacc
    | some plugin =>
      dsimp only
      have hP : P plugin := by
        obtain ⟨kv, hkv, hkv2⟩ := lookupMap_mem acc kv0.1 plugin hl
        rw [← hkv2]
        exact hacc kv hkv
      cases hp : findParent (loaded.map (fun kv => kv.1)) plugin.pluginDir with
      | none => exact ih acc hacc
      | some parentDir =>
        dsimp only
        have hacc1 : ∀ kv ∈ updateMap acc kv0.1 { plugin with parent := some parentDir },
            P kv.2 :=
          updateMap_forall P acc kv0.1 _ hacc (hpar plugin parentDir hP)
        cases hlp : lookupMap (updateMap acc kv0.1 { plugin with parent := some parentDir })
            parentDir with
        | none => exact ih _ hacc1
        | some parentPlugin =>
          dsimp only
          have hPp : P parentPlugin := by
            obtain ⟨kv, hkv, hkv2⟩ := lookupMap_mem _ parentDir parentPlugin hlp
            rw [← hkv2]
            exact hacc1 kv hkv
          exact ih _ (updateMap_forall P _ parentDir _ hacc1 (hch parentPlugin kv0.1 hPp))

/-- An entry-wise property that survives the wiring step and the
signature-error writeback holds for every verified plugin. -/
theorem validateStage_verified_forall (env : Env) (P : Plugin → Prop)
    (hnav : ∀ cur p, P p → P (navAndAppConfig env cur p))
    (hsig : ∀ (p : Plugin) se, P p → P { p with signatureError := some se }) :
    ∀ (keys : List String) (cur : List (String × Plugin)) (verified : List Plugin)
      (errs : List (String × SignatureError)),
      (∀ kv ∈ cur, P kv.2) → (∀ q ∈ verified, P q) →
      ∀ q ∈ (validateStage env keys cur verified errs).verified, P q := by
  intro keys
  induction keys with
  | nil =>
    intro cur verified errs _ hv q hq
    simp only [validateStage] at hq
    exact hv q hq
  | cons k rest ih =>
    intro cur verified errs hcur hv
    simp only [validateStage]
    cases hl : lookupMap cur k with
    | none => exact ih cur verified errs hcur hv
    | some plugin =>
      dsimp only
      have hP : P plugin := by
        obtain ⟨kv, hkv, hkv2⟩ := lookupMap_mem cur k plugin hl
        rw [← hkv2]
        exact hcur kv hkv
      have hvext : ∀ q ∈ verified ++ [navAndAppConfig env cur plugin], P q := by
        intro q hq
        rcases List.mem_append.mp hq with hq | hq
        · exact hv q hq
        · rw [List.mem_singleton.mp hq]
          exact hnav cur plugin hP
      cases hvd : env.validate plugin with
      | some se =>
        exact ih _ verified _ (updateMap_forall P cur k _ hcur (hsig plugin se hP)) hv
      | none =>
        dsimp only
        by_cases hrc : (!plugin.isRenderer && !plugin.isCorePlugin) = true
        · rw [if_pos hrc]
          cases hfs : env.fsExists (pathJoin [plugin.pluginDir, "module.js"]) with
          | error e =>
            intro q hq
            exact hv q hq
          | ok b =>
            exact ih _ _ _ (updateMap_forall P cur k _ hcur (hnav cur plugin hP)) hvext
        · rw [if_neg hrc]
          exact ih _ _ _ (updateMap_forall P cur k _ hcur (hnav cur plugin hP)) hvext

/-- A successful Load returns exactly the verified batch. -/
theorem loadPlugins_result_ok (env : Env) (cls : Class) (paths : List String)
    (reg : List Plugin) (errs0 : List (String × SignatureError)) (vs : List Plugin)
    (h : (loadPlugins env cls paths reg errs0).result = .ok vs) :
    vs = (pipelineValidated env cls paths reg errs0).verified := by
  revert h
  simp only [loadPlugins]
  cases hf : (pipelineValidated env cls paths reg errs0).fatal with
  | some e =>
    intro h
    exact absurd h (by simp)
  | none =>
    dsimp only
    cases hi : (initStage env (pipelineValidated env cls paths reg errs0).verified []).2 with
    | some e =>
      intro h
      exact absurd h (by simp)
    | none =>
      intro h
      exact (Except.ok.inj h).symm

/-- A non-app plugin never leaves the wiring with a navigation URL. -/
theorem navAndAppConfig_navURL_nonapp (env : Env) (cur : List (String × Plugin))
    (p : Plugin) (h : p.isApp = false) :
    (navAndAppConfig env cur p).defaultNavURL = p.defaultNavURL := by
  unfold navAndAppConfig
  rw [h]
  simp only [Bool.false_eq_true, if_false]
  cases hpar : p.parent with
  | none => rfl
  | some pd =>
    dsimp only
    cases hl : lookupMap cur pd with
    | none => rfl
    | some pp =>
      dsimp only
      by_cases ha : pp.isApp = true
      · rw [if_pos ha]
        exact (configureAppChildPlugin_stable pp p).2.2.2.2
      · rw [if_neg ha]

/-- Every non-app plugin of a successful Load result has an empty
default navigation URL. -/
theorem loadPlugins_nonapp_nav (env : Env) (cls : Class) (paths : List String)
    (reg : List Plugin) (errs0 : List (String × SignatureError)) (vs : List Plugin)
    (p : Plugin) (h : (loadPlugins env cls paths reg errs0).result = .ok vs)
    (hp : p ∈ vs) (happ : p.isApp = false) : p.defaultNavURL = "" := by
  have hvs := loadPlugins_result_ok env cls paths reg errs0 vs h
  subst hvs
  have hwired : ∀ kv ∈ pipelineWired env cls paths reg,
      (fun q : Plugin => q.isApp = false → q.defaultNavURL = "") kv.2 := by
    unfold pipelineWired
    apply wireDependencies_forall (fun q : Plugin => q.isApp = false → q.defaultNavURL = "")
      (fun p pd hp happ' => hp happ') (fun p d hp happ' => hp happ')
    intro kv hkv
    intro _
    exact createPluginsForLoading_navURL env cls _ kv hkv
  have hnav : ∀ cur q, (q.isApp = false → q.defaultNavURL = "") →
      ((navAndAppConfig env cur q).isApp = false →
        (navAndAppConfig env cur q).defaultNavURL = "") := by
    intro cur q hq happ'
    have htype := (navAndAppConfig_stable env cur q).2.1
    have hqapp : q.isApp = false := by
      unfold Plugin.isApp at happ' ⊢
      rw [← htype]
      exact happ'
    rw [navAndAppConfig_navURL_nonapp env cur q hqapp]
    exact hq hqapp
  have hall := validateStage_verified_forall env
    (fun q => q.isApp = false → q.defaultNavURL = "") hnav
    (fun p se hp happ' => hp happ')
    ((pipelineWired env cls paths reg).map (fun kv => kv.1))
    (pipelineWired env cls paths reg) [] errs0 hwired (by simp)
  have hp' : p ∈ (validateStage env
      ((pipelineWired env cls paths reg).map (fun kv => kv.1))
      (pipelineWired env cls paths reg) [] errs0).verified := hp
  exact hall p hp' happ

/-- C8 (corrected): for the concrete app plugin carrying two
default-navigation page includes, the navigation URL is computed from the
*last* of them, not the first — refuting the first-include claim. -/
theorem c8_first_include_refuted :
    (match (loadPlugins envNav Class.external ["/n/app/plugin.json"] [] []).result with
      | .ok l => l.map Plugin.defaultNavURL
      | .error _ => []) = ["/plugins/app1/page/y"] ∧
    ("/plugins/app1/page/y" : String) ≠ "/plugins/app1/page/x" := by
  refine ⟨by decide, by decide⟩

/-- C8 (amended): for every app-typed plugin the default navigation URL
is the URL contributed by the *last* include having `defaultNav` and a
usable target (a page include contributes `/plugins/<id>/page/<slug>`; a
dashboard include lacking a resolvable identifier contributes nothing
and is skipped with a warning, so it leaves the URL as previously
computed — unset if nothing set it); for every non-app plugin of a Load
result the default navigation URL is never set. -/
theorem c8_nav_url_from_last_include :
    (∀ (env : Env) (p : Plugin),
      (setDefaultNavURL env p).defaultNavURL =
        ((navCandidates env p.id p.jsonData.includes).getLast?).getD p.defaultNavURL) ∧
    (∀ (env : Env) (cls : Class) (paths : List String) (reg : List Plugin)
      (errs0 : List (String × SignatureError)) (vs : List Plugin) (p : Plugin),
      (loadPlugins env cls paths reg errs0).result = .ok vs →
      p ∈ vs → p.isApp = false → p.defaultNavURL = "") :=
  ⟨setDefaultNavURL_navURL, loadPlugins_nonapp_nav⟩

/-- Witness for C8: the two-include app plugin's URL equals the last
candidate, and the concrete non-app nested plugin ends with no URL. -/
theorem c8_witness :
    (setDefaultNavURL demoEnv navDemoPlugin).defaultNavURL =
      ((navCandidates demoEnv navDemoPlugin.id navDemoPlugin.jsonData.includes).getLast?).getD
        navDemoPlugin.defaultNavURL ∧
    (nestVs.getD 1 dummyPlugin).defaultNavURL = "" :=
  ⟨c8_nav_url_from_last_include.1 demoEnv navDemoPlugin,
   c8_nav_url_from_last_include.2 envNest Class.external nestPaths [] [] nestVs
     (nestVs.getD 1 dummyPlugin) (by decide) (by decide) (by decide)⟩

/-! ## C4: the signature error map -/

/-- Inserting an error makes it the binding of its key. -/
theorem errsLookup_insert_self (errs : List (String × SignatureError))
    (i : String) (e : SignatureError) :
    errsLookup (errsInsert errs i e) i = some e := by
  unfold errsInsert
  have hl : ∀ kv ∈ errs.filter (fun kv => kv.1 ≠ i), ¬(kv.1 = i) := by
    intro kv hkv
    simpa using (List.mem_filter.mp hkv).2
  generalize errs.filter (fun kv => kv.1 ≠ i) = l at hl
  unfold errsLookup
  induction l with
  | nil => simp [List.find?]
  | cons kv l ih =>
    rw [List.cons_append, List.find?_cons]
    have hk : ¬(kv.1 = i) := hl kv (List.mem_cons_self _ _)
    simp only [decide_eq_false hk]
    exact ih (fun kv hkv => hl kv (List.mem_cons_of_mem _ hkv))

/-- Lookup of another key ignores a filtered-out key. -/
theorem errsLookup_filter_ne (errs : List (String × SignatureError))
    (i j : String) (h : j ≠ i) :
    errsLookup (errs.filter (fun kv => kv.1 ≠ i)) j = errsLookup errs j := by
  unfold errsLookup
  induction errs with
  | nil => rfl
  | cons kv errs ih =>
    rw [List.filter_cons]
    by_cases hki : kv.1 = i
    · have : (decide (kv.1 ≠ i)) = false := by simp [hki]
      rw [this]
      simp only [Bool.false_eq_true, if_false]
      have hkj : ¬(kv.1 = j) := by
        rw [hki]
        exact fun he => h he.symm
      rw [List.find?_cons]
      simp only [decide_eq_false hkj]
      exact ih
    · have : (decide (kv.1 ≠ i)) = true := by simpa using hki
      rw [this]
      simp only [if_true]
      rw [List.find?_cons, List.find?_cons]
      by_cases hkj : kv.1 = j
      · simp [hkj]
      · simp only [decide_eq_false hkj]
        exact ih

/-- Deleting a key removes its binding. -/
theorem errsLookup_delete_self (errs : List (String × SignatureError)) (i : String) :
    errsLookup (errsDelete errs i) i = none := by
  unfold errsDelete errsLookup
  have hf : (errs.filter (fun kv => kv.1 ≠ i)).find? (fun kv => kv.1 = i) = none := by
    refine List.find?_eq_none.mpr ?_
    intro kv hkv
    simpa using (List.mem_filter.mp hkv).2
  rw [hf]
  rfl

/-- Deleting a key leaves other bindings alone. -/
theorem errsLookup_delete_ne (errs : List (String × SignatureError))
    (i j : String) (e? : j ≠ i) :
    errsLookup (errsDelete errs i) j = errsLookup errs j :=
  errsLookup_filter_ne errs i j e?

/-- Appending a single other-keyed binding leaves a lookup alone. -/
theorem errsLookup_append_single_ne (l : List (String × SignatureError))
    (i j : String) (e : SignatureError) (h : j ≠ i) :
    errsLookup (l ++ [(i, e)]) j = errsLookup l j := by
  unfold errsLookup
  induction l with
  | nil =>
    simp only [List.nil_append, List.find?]
    have hne : (decide (i = j)) = false := decide_eq_false (fun he => h he.symm)
    simp [hne]
  | cons kv l ih =>
    rw [List.cons_append, List.find?_cons, List.find?_cons]
    by_cases hkj : kv.1 = j
    · simp [hkj]
    · simp only [decide_eq_false hkj]
      exact ih

/-- Inserting an error leaves the bindings of other keys alone. -/
theorem errsLookup_insert_ne (errs : List (String × SignatureError))
    (i j : String) (e : SignatureError) (h : j ≠ i) :
    errsLookup (errsInsert errs i e) j = errsLookup errs j := by
  unfold errsInsert
  rw [errsLookup_append_single_ne _ i j e h]
  exact errsLookup_filter_ne errs i j h

/-- A binding-wise property survives an insert whose binding satisfies
it. -/
theorem errsInsert_forall (P : String × SignatureError → Prop)
    (errs : List (String × SignatureError)) (i : String) (e : SignatureError)
    (h : ∀ kv ∈ errs, P kv) (he : P (i, e)) :
    ∀ kv ∈ errsInsert errs i e, P kv := by
  intro kv hkv
  rcases List.mem_append.mp hkv with hkv | hkv
  · exact h kv (List.mem_filter.mp hkv).1
  · rw [List.mem_singleton.mp hkv]
    exact he

/-- A binding-wise property survives a delete. -/
theorem errsDelete_forall (P : String × SignatureError → Prop)
    (errs : List (String × SignatureError)) (i : String)
    (h : ∀ kv ∈ errs, P kv) :
    ∀ kv ∈ errsDelete errs i, P kv :=
  fun kv hkv => h kv (List.mem_filter.mp hkv).1

/-- When the validator reports errors under the plugin ID they belong to, every
binding of the error map stays keyed by the ID it carries. -/
theorem validateStage_errs_wellKeyed (env : Env)
    (hvk : ∀ (q : Plugin) se, env.validate q = some se → se.pluginID = q.id) :
    ∀ (keys : List String) (cur : List (String × Plugin)) (verified : List Plugin)
      (errs : List (String × SignatureError)),
      (∀ kv ∈ errs, kv.2.pluginID = kv.1) →
      ∀ kv ∈ (validateStage env keys cur verified errs).errs, kv.2.pluginID = kv.1 := by
  intro keys
  induction keys with
  | nil =>
    intro cur verified errs h
    simp only [validateStage]
    exact h
  | cons k rest ih =>
    intro cur verified errs h
    simp only [validateStage]
    cases hl : lookupMap cur k with
    | none => exact ih cur verified errs h
    | some plugin =>
      dsimp only
      cases hv : env.validate plugin with
      | some se =>
        exact ih _ _ _ (errsInsert_forall _ errs plugin.id se h (hvk plugin se hv))
      | none =>
        dsimp only
        by_cases hrc : (!plugin.isRenderer && !plugin.isCorePlugin) = true
        · rw [if_pos hrc]
          cases hfs : env.fsExists (pathJoin [plugin.pluginDir, "module.js"]) with
          | error e => exact errsDelete_forall _ errs plugin.id h
          | ok b => exact ih _ _ _ (errsDelete_forall _ errs plugin.id h)
        · rw [if_neg hrc]
          exact ih _ _ _ (errsDelete_forall _ errs plugin.id h)

/-- Plugins of other IDs neither touch a given ID\'s binding nor add a
verified plugin carrying it. -/
theorem validateStage_errs_other (env : Env) :
    ∀ (keys : List String) (cur : List (String × Plugin)) (verified : List Plugin)
      (errs : List (String × SignatureError)) (id0 : String),
      (∀ d q, d ∈ keys → lookupMap cur d = some q → q.id ≠ id0) →
      errsLookup (validateStage env keys cur verified errs).errs id0 =
        errsLookup errs id0 ∧
      (∀ q ∈ (validateStage env keys cur verified errs).verified,
        q.id = id0 → q ∈ verified) := by
  intro keys
  induction keys with
  | nil =>
    intro cur verified errs id0 _
    exact ⟨rfl, fun q hq _ => hq⟩
  | cons k rest ih =>
    intro cur verified errs id0 h
    simp only [validateStage]
    cases hl : lookupMap cur k with
    | none =>
      exact ih cur verified errs id0
        (fun d q hd hq => h d q (List.mem_cons_of_mem _ hd) hq)
    | some plugin =>
      dsimp only
      have hne : plugin.id ≠ id0 := h k plugin (List.mem_cons_self _ _) hl
      have htrans : ∀ (p' : Plugin), p'.jsonData.id = plugin.jsonData.id →
          ∀ d q, d ∈ rest → lookupMap (updateMap cur k p') d = some q → q.id ≠ id0 := by
        intro p' hp' d q hd hq
        by_cases hdk : d = k
        · subst hdk
          rw [lookupMap_updateMap_self, hl] at hq
          have hq2 : p' = q := by simpa using hq
          rw [← hq2]
          unfold Plugin.id
          rw [hp']
          exact hne
        · rw [lookupMap_updateMap_ne _ _ _ _ hdk] at hq
          exact h d q (List.mem_cons_of_mem _ hd) hq
      cases hv : env.validate plugin with
      | some se =>
        have hrec := ih (updateMap cur k { plugin with signatureError := some se })
          verified (errsInsert errs plugin.id se) id0 (htrans _ rfl)
        exact ⟨hrec.1.trans (errsLookup_insert_ne errs plugin.id id0 se hne.symm),
          hrec.2⟩
      | none =>
        dsimp only
        by_cases hrc : (!plugin.isRenderer && !plugin.isCorePlugin) = true
        · rw [if_pos hrc]
          cases hfs : env.fsExists (pathJoin [plugin.pluginDir, "module.js"]) with
          | error e =>
            exact ⟨errsLookup_delete_ne errs plugin.id id0 hne.symm,
              fun q hq _ => hq⟩
          | ok b =>
            have hrec := ih (updateMap cur k (navAndAppConfig env cur plugin))
              (verified ++ [navAndAppConfig env cur plugin])
              (errsDelete errs plugin.id) id0
              (htrans _ (navAndAppConfig_stable env cur plugin).1)
            refine ⟨hrec.1.trans (errsLookup_delete_ne errs plugin.id id0 hne.symm), ?_⟩
            intro q hq hqid
            rcases List.mem_append.mp (hrec.2 q hq hqid) with h1 | h1
            · exact h1
            · exfalso
              have hq2 := List.mem_singleton.mp h1
              rw [hq2] at hqid
              have : plugin.id = id0 := by
                unfold Plugin.id at hqid ⊢
                rw [← (navAndAppConfig_stable env cur plugin).1]
                exact hqid
              exact hne this
        · rw [if_neg hrc]
          have hrec := ih (updateMap cur k (navAndAppConfig env cur plugin))
            (verified ++ [navAndAppConfig env cur plugin])
            (errsDelete errs plugin.id) id0
            (htrans _ (navAndAppConfig_stable env cur plugin).1)
          refine ⟨hrec.1.trans (errsLookup_delete_ne errs plugin.id id0 hne.symm), ?_⟩
          intro q hq hqid
          rcases List.mem_append.mp (hrec.2 q hq hqid) with h1 | h1
          · exact h1
          · exfalso
            have hq2 := List.mem_singleton.mp h1
            rw [hq2] at hqid
            have : plugin.id = id0 := by
              unfold Plugin.id at hqid ⊢
              rw [← (navAndAppConfig_stable env cur plugin).1]
              exact hqid
            exact hne this

/-- A batch plugin that fails validation gets its error recorded under
its ID (when the loop completes), and no verified plugin carries that
ID. -/
theorem validateStage_errs_insert (env : Env) :
    ∀ (keys : List String) (cur : List (String × Plugin)) (verified : List Plugin)
      (errs : List (String × SignatureError)) (d : String) (p : Plugin)
      (se : SignatureError),
      keys.Nodup → d ∈ keys → lookupMap cur d = some p → env.validate p = some se →
      (∀ d' q, d' ∈ keys → lookupMap cur d' = some q → q.id = p.id → d' = d) →
      ((validateStage env keys cur verified errs).fatal = none →
        errsLookup (validateStage env keys cur verified errs).errs p.id = some se ∧
        (∀ q ∈ (validateStage env keys cur verified errs).verified,
          q.id = p.id → q ∈ verified)) := by
  intro keys
  induction keys with
  | nil =>
    intro cur verified errs d p se _ hd
    exact absurd hd (List.not_mem_nil _)
  | cons k rest ih =>
    intro cur verified errs d p se hnd hd hlp hval huniq
    simp only [validateStage]
    by_cases hdk : d = k
    · subst hdk
      rw [hlp]
      dsimp only
      rw [hval]
      dsimp only
      intro _
      have hother := validateStage_errs_other env rest
        (updateMap cur d { p with signatureError := some se }) verified
        (errsInsert errs p.id se) p.id (by
          intro d' q hd' hq
          have hd'd : d' ≠ d := fun he => (List.nodup_cons.mp hnd).1 (he ▸ hd')
          rw [lookupMap_updateMap_ne _ _ _ _ hd'd] at hq
          intro hqid
          exact hd'd (huniq d' q (List.mem_cons_of_mem _ hd') hq hqid))
      refine ⟨?_, hother.2⟩
      rw [hother.1]
      exact errsLookup_insert_self errs p.id se
    · have hdr : d ∈ rest := (List.mem_cons.mp hd).resolve_left hdk
      have hnd2 := List.nodup_cons.mp hnd
      cases hl : lookupMap cur k with
      | none =>
        exact ih cur verified errs d p se hnd2.2 hdr hlp hval
          (fun d' q hd' hq => huniq d' q (List.mem_cons_of_mem _ hd') hq)
      | some plugin =>
        dsimp only
        have hlpne : ∀ (p' : Plugin), lookupMap (updateMap cur k p') d = some p :=
          fun p' => by rw [lookupMap_updateMap_ne _ _ _ _ hdk]; exact hlp
        have huniqtrans : ∀ (p' : Plugin), ∀ d' q, d' ∈ rest →
            lookupMap (updateMap cur k p') d' = some q → q.id = p.id → d' = d := by
          intro p' d' q hd' hq hqid
          have hd'k : d' ≠ k := fun he => hnd2.1 (he ▸ hd')
          rw [lookupMap_updateMap_ne _ _ _ _ hd'k] at hq
          exact huniq d' q (List.mem_cons_of_mem _ hd') hq hqid
        cases hv : env.validate plugin with
        | some se2 =>
          exact ih _ verified _ d p se hnd2.2 hdr (hlpne _) hval (huniqtrans _)
        | none =>
          dsimp only
          have hne : plugin.id ≠ p.id := fun he =>
            hdk (huniq k plugin (List.mem_cons_self _ _) hl he).symm
          have hstep : ∀ hfat2 :
              (validateStage env rest (updateMap cur k (navAndAppConfig env cur plugin))
                (verified ++ [navAndAppConfig env cur plugin])
                (errsDelete errs plugin.id)).fatal = none,
              errsLookup (validateStage env rest
                (updateMap cur k (navAndAppConfig env cur plugin))
                (verified ++ [navAndAppConfig env cur plugin])
                (errsDelete errs plugin.id)).errs p.id = some se ∧
              (∀ q ∈ (validateStage env rest
                (updateMap cur k (navAndAppConfig env cur plugin))
                (verified ++ [navAndAppConfig env cur plugin])
                (errsDelete errs plugin.id)).verified, q.id = p.id → q ∈ verified) := by
            intro hfat2
            have hrec := ih _ (verified ++ [navAndAppConfig env cur plugin]) _ d p se
              hnd2.2 hdr (hlpne _) hval (huniqtrans _) hfat2
            refine ⟨hrec.1, ?_⟩
            intro q hq hqid
            rcases List.mem_append.mp (hrec.2 q hq hqid) with h1 | h1
            · exact h1
            · exfalso
              have hq2 := List.mem_singleton.mp h1
              rw [hq2] at hqid
              apply hne
              unfold Plugin.id at hqid ⊢
              rw [← (navAndAppConfig_stable env cur plugin).1]
              exact hqid
          by_cases hrc : (!plugin.isRenderer && !plugin.isCorePlugin) = true
          · rw [if_pos hrc]
            cases hfs : env.fsExists (pathJoin [plugin.pluginDir, "module.js"]) with
            | error e =>
              intro hfat
              exact absurd hfat (by simp)
            | ok b =>
              exact hstep
          · rw [if_neg hrc]
            exact hstep

/-- A batch plugin that passes validation clears its ID from the error
map (when the loop completes). -/
theorem validateStage_errs_delete (env : Env) :
    ∀ (keys : List String) (cur : List (String × Plugin)) (verified : List Plugin)
      (errs : List (String × SignatureError)) (d : String) (p : Plugin),
      keys.Nodup → d ∈ keys → lookupMap cur d = some p → env.validate p = none →
      (∀ d' q, d' ∈ keys → lookupMap cur d' = some q → q.id = p.id → d' = d) →
      ((validateStage env keys cur verified errs).fatal = none →
        errsLookup (validateStage env keys cur verified errs).errs p.id = none) := by
  intro keys
  induction keys with
  | nil =>
    intro cur verified errs d p _ hd
    exact absurd hd (List.not_mem_nil _)
  | cons k rest ih =>
    intro cur verified errs d p hnd hd hlp hval huniq
    simp only [validateStage]
    by_cases hdk : d = k
    · subst hdk
      rw [hlp]
      dsimp only
      rw [hval]
      dsimp only
      have hother : ∀ (cur2 : List (String × Plugin)),
          (∀ d' q, d' ∈ rest → lookupMap cur2 d' = some q → q.id ≠ p.id) →
          ∀ verified2,
          errsLookup (validateStage env rest cur2 verified2
            (errsDelete errs p.id)).errs p.id = none := by
        intro cur2 hc2 verified2
        have h2 := validateStage_errs_other env rest cur2 verified2
          (errsDelete errs p.id) p.id hc2
        rw [h2.1]
        exact errsLookup_delete_self errs p.id
      have hrestne : ∀ (p' : Plugin), ∀ d' q, d' ∈ rest →
          lookupMap (updateMap cur d p') d' = some q → q.id ≠ p.id := by
        intro p' d' q hd' hq hqid
        have hd'd : d' ≠ d := fun he => (List.nodup_cons.mp hnd).1 (he ▸ hd')
        rw [lookupMap_updateMap_ne _ _ _ _ hd'd] at hq
        exact hd'd (huniq d' q (List.mem_cons_of_mem _ hd') hq hqid)
      by_cases hrc : (!p.isRenderer && !p.isCorePlugin) = true
      · rw [if_pos hrc]
        cases hfs : env.fsExists (pathJoin [p.pluginDir, "module.js"]) with
        | error e =>
          intro hfat
          exact absurd hfat (by simp)
        | ok b =>
          intro _
          exact hother _ (hrestne _) _
      · rw [if_neg hrc]
        intro _
        exact hother _ (hrestne _) _
    · have hdr : d ∈ rest := (List.mem_cons.mp hd).resolve_left hdk
      have hnd2 := List.nodup_cons.mp hnd
      cases hl : lookupMap cur k with
      | none =>
        exact ih cur verified errs d p hnd2.2 hdr hlp hval
          (fun d' q hd' hq => huniq d' q (List.mem_cons_of_mem _ hd') hq)
      | some plugin =>
        dsimp only
        have hlpne : ∀ (p' : Plugin), lookupMap (updateMap cur k p') d = some p :=
          fun p' => by rw [lookupMap_updateMap_ne _ _ _ _ hdk]; exact hlp
        have huniqtrans : ∀ (p' : Plugin), ∀ d' q, d' ∈ rest →
            lookupMap (updateMap cur k p') d' = some q → q.id = p.id → d' = d := by
          intro p' d' q hd' hq hqid
          have hd'k : d' ≠ k := fun he => hnd2.1 (he ▸ hd')
          rw [lookupMap_updateMap_ne _ _ _ _ hd'k] at hq
          exact huniq d' q (List.mem_cons_of_mem _ hd') hq hqid
        cases hv : env.validate plugin with
        | some se2 =>
          exact ih _ verified _ d p hnd2.2 hdr (hlpne _) hval (huniqtrans _)
        | none =>
          dsimp only
          by_cases hrc : (!plugin.isRenderer && !plugin.isCorePlugin) = true
          · rw [if_pos hrc]
            cases hfs : env.fsExists (pathJoin [plugin.pluginDir, "module.js"]) with
            | error e =>
              intro hfat
              exact absurd hfat (by simp)
            | ok b =>
              exact ih _ _ _ d p hnd2.2 hdr (hlpne _) hval (huniqtrans _)
          · rw [if_neg hrc]
            exact ih _ _ _ d p hnd2.2 hdr (hlpne _) hval (huniqtrans _)

/-- A recorded error surfaces in the operator-facing snapshot. -/
theorem PluginErrors_mem_of_lookup (errs : List (String × SignatureError))
    (i : String) (se : SignatureError) (h : errsLookup errs i = some se) :
    ({ pluginID := se.pluginID, errorCode := se.asErrorCode } : PluginError) ∈
      PluginErrors errs := by
  unfold errsLookup at h
  cases hf : errs.find? (fun kv => kv.1 = i) with
  | none =>
    rw [hf] at h
    exact Option.noConfusion h
  | some kv =>
    rw [hf] at h
    have hkv2 : kv.2 = se := by simpa using h
    unfold PluginErrors
    refine List.mem_map.mpr ⟨kv, List.mem_of_find?_eq_some hf, ?_⟩
    rw [hkv2]

/-- An ID absent from a well-keyed error map never surfaces in the
operator-facing snapshot. -/
theorem PluginErrors_not_mem (errs : List (String × SignatureError)) (i : String)
    (hwk : ∀ kv ∈ errs, kv.2.pluginID = kv.1)
    (h : errsLookup errs i = none) :
    i ∉ (PluginErrors errs).map (fun pe => pe.pluginID) := by
  intro hmem
  obtain ⟨pe, hpe, hpeid⟩ := List.mem_map.mp hmem
  obtain ⟨kv, hkv, hkvpe⟩ := List.mem_map.mp hpe
  have hkey : kv.1 = i := by
    rw [← hwk kv hkv, ← hpeid, ← hkvpe]
  have hfn : errs.find? (fun kv => kv.1 = i) = none := by
    unfold errsLookup at h
    cases hf : errs.find? (fun kv => kv.1 = i) with
    | none => rfl
    | some kv2 =>
      rw [hf] at h
      exact Option.noConfusion h
  exact absurd hkey (by simpa using List.find?_eq_none.mp hfn kv hkv)

/-- The error map a Load call leaves behind is exactly the validation
stage output; later stages never touch it. -/
theorem loadPlugins_errs (env : Env) (cls : Class) (paths : List String)
    (reg : List Plugin) (errs0 : List (String × SignatureError)) :
    (loadPlugins env cls paths reg errs0).errs =
      (pipelineValidated env cls paths reg errs0).errs := by
  simp only [loadPlugins]
  cases hf : (pipelineValidated env cls paths reg errs0).fatal with
  | some e => rfl
  | none =>
    dsimp only
    cases hi : (initStage env (pipelineValidated env cls paths reg errs0).verified []).2 with
    | some e => rfl
    | none => rfl

/-- C4 (confirmed): a plugin failing signature validation is excluded
from the Load result, its error is recorded in the orchestrator error
map under its plugin ID and surfaces in `PluginErrors` with the code
derived from the signature status; and a later Load call (seeded with
that error map) in which a same-ID plugin validates successfully deletes
the entry, so the ID no longer appears in `PluginErrors`. Stated for
batches whose keys are unique (discovery guarantees this), with
validators reporting errors under the plugin ID they belong to, for
completed validation loops. -/
theorem c4_signature_errors_recorded_and_cleared
    (env env2 : Env) (cls cls2 : Class) (paths paths2 : List String)
    (reg reg2 : List Plugin) (errs0 : List (String × SignatureError))
    (d : String) (p : Plugin) (se : SignatureError)
    (hwk : ∀ kv ∈ errs0, kv.2.pluginID = kv.1)
    (hvk : ∀ (q : Plugin) se2, env.validate q = some se2 → se2.pluginID = q.id)
    (hdk : d ∈ (pipelineWired env cls paths reg).map (fun kv => kv.1))
    (hd : lookupMap (pipelineWired env cls paths reg) d = some p)
    (hval : env.validate p = some se)
    (huniq : ∀ d2 q, d2 ∈ (pipelineWired env cls paths reg).map (fun kv => kv.1) →
      lookupMap (pipelineWired env cls paths reg) d2 = some q → q.id = p.id → d2 = d)
    (hnodup : ((pipelineWired env cls paths reg).map (fun kv => kv.1)).Nodup)
    (hfatal : (pipelineValidated env cls paths reg errs0).fatal = none) :
    (∀ vs, (loadPlugins env cls paths reg errs0).result = .ok vs →
      ∀ q ∈ vs, q.id ≠ p.id) ∧
    errsLookup (loadPlugins env cls paths reg errs0).errs p.id = some se ∧
    ({ pluginID := p.id, errorCode := se.asErrorCode } : PluginError) ∈
      PluginErrors (loadPlugins env cls paths reg errs0).errs ∧
    (∀ d2 q2,
      (∀ (q : Plugin) se2, env2.validate q = some se2 → se2.pluginID = q.id) →
      d2 ∈ (pipelineWired env2 cls2 paths2 reg2).map (fun kv => kv.1) →
      lookupMap (pipelineWired env2 cls2 paths2 reg2) d2 = some q2 →
      q2.id = p.id → env2.validate q2 = none →
      (∀ d3 q3, d3 ∈ (pipelineWired env2 cls2 paths2 reg2).map (fun kv => kv.1) →
        lookupMap (pipelineWired env2 cls2 paths2 reg2) d3 = some q3 →
        q3.id = q2.id → d3 = d2) →
      ((pipelineWired env2 cls2 paths2 reg2).map (fun kv => kv.1)).Nodup →
      (pipelineValidated env2 cls2 paths2 reg2
        (loadPlugins env cls paths reg errs0).errs).fatal = none →
      errsLookup (loadPlugins env2 cls2 paths2 reg2
        (loadPlugins env cls paths reg errs0).errs).errs p.id = none ∧
      p.id ∉ (PluginErrors (loadPlugins env2 cls2 paths2 reg2
        (loadPlugins env cls paths reg errs0).errs).errs).map (fun pe => pe.pluginID)) := by
  have hfatal3 : (validateStage env
      ((pipelineWired env cls paths reg).map (fun kv => kv.1))
      (pipelineWired env cls paths reg) [] errs0).fatal = none := hfatal
  have hins := validateStage_errs_insert env
    ((pipelineWired env cls paths reg).map (fun kv => kv.1))
    (pipelineWired env cls paths reg) [] errs0 d p se
    hnodup hdk hd hval huniq hfatal3
  have herrs1 := loadPlugins_errs env cls paths reg errs0
  have hwk1 : ∀ kv ∈ (loadPlugins env cls paths reg errs0).errs,
      kv.2.pluginID = kv.1 := by
    rw [herrs1]
    exact validateStage_errs_wellKeyed env hvk _ _ [] errs0 hwk
  refine ⟨?_, ?_, ?_, ?_⟩
  · intro vs hres q hq hqid
    have hvs := loadPlugins_result_ok env cls paths reg errs0 vs hres
    subst hvs
    exact absurd (hins.2 q hq hqid) (List.not_mem_nil q)
  · rw [herrs1]
    exact hins.1
  · have hpid : se.pluginID = p.id := hvk p se hval
    rw [herrs1, ← hpid]
    exact PluginErrors_mem_of_lookup _ p.id se hins.1
  · intro d2 q2 hvk2 hdk2 hd2 hq2id hval2 huniq2 hnodup2 hfatal2
    have herrs2 := loadPlugins_errs env2 cls2 paths2 reg2
      (loadPlugins env cls paths reg errs0).errs
    have hfatal4 : (validateStage env2
        ((pipelineWired env2 cls2 paths2 reg2).map (fun kv => kv.1))
        (pipelineWired env2 cls2 paths2 reg2) []
        (loadPlugins env cls paths reg errs0).errs).fatal = none := hfatal2
    have hdel := validateStage_errs_delete env2
      ((pipelineWired env2 cls2 paths2 reg2).map (fun kv => kv.1))
      (pipelineWired env2 cls2 paths2 reg2) []
      (loadPlugins env cls paths reg errs0).errs d2 q2
      hnodup2 hdk2 hd2 hval2 huniq2 hfatal4
    have hlk2 : errsLookup (loadPlugins env2 cls2 paths2 reg2
        (loadPlugins env cls paths reg errs0).errs).errs p.id = none := by
      rw [herrs2, ← hq2id]
      exact hdel
    refine ⟨hlk2, ?_⟩
    apply PluginErrors_not_mem _ p.id ?_ hlk2
    rw [herrs2]
    exact validateStage_errs_wellKeyed env2 hvk2 _ _ []
      (loadPlugins env cls paths reg errs0).errs hwk1

/-- Witness for C4: the concrete invalid-signature plugin is recorded
and surfaced, and the recovered second Load call clears it. -/
theorem c4_witness :
    errsLookup (loadPlugins envSigBad Class.external ["/s/a/plugin.json"] [] []).errs
      sigP.id = some sigSe ∧
    ({ pluginID := sigP.id, errorCode := sigSe.asErrorCode } : PluginError) ∈
      PluginErrors (loadPlugins envSigBad Class.external ["/s/a/plugin.json"] [] []).errs ∧
    errsLookup (loadPlugins envSigGood Class.external ["/s/a/plugin.json"] []
      sigErrsAfterBad).errs sigP.id = none ∧
    sigP.id ∉ (PluginErrors (loadPlugins envSigGood Class.external ["/s/a/plugin.json"] []
      sigErrsAfterBad).errs).map (fun pe => pe.pluginID) := by
  have hvk1 : ∀ (q : Plugin) se2, envSigBad.validate q = some se2 →
      se2.pluginID = q.id := by
    intro q se2 h
    by_cases hs : q.signature = "invalid"
    · simp only [envSigBad, demoEnv] at h
      rw [if_pos hs] at h
      rw [← Option.some.inj h]
    · simp only [envSigBad, demoEnv] at h
      rw [if_neg hs] at h
      exact Option.noConfusion h
  have hvk2 : ∀ (q : Plugin) se2, envSigGood.validate q = some se2 →
      se2.pluginID = q.id := by
    intro q se2 h
    by_cases hs : q.signature = "invalid"
    · simp only [envSigGood, envSigBad, demoEnv] at h
      rw [if_pos hs] at h
      rw [← Option.some.inj h]
    · simp only [envSigGood, envSigBad, demoEnv] at h
      rw [if_neg hs] at h
      exact Option.noConfusion h
  have hkeys1 : sigWired.map (fun kv => kv.1) = ["/s/a"] := by decide
  have hkeys2 : sigWired2.map (fun kv => kv.1) = ["/s/a"] := by decide
  have h := c4_signature_errors_recorded_and_cleared envSigBad envSigGood
    Class.external Class.external ["/s/a/plugin.json"] ["/s/a/plugin.json"] [] [] []
    "/s/a" sigP sigSe (by simp) hvk1
    (by rw [show pipelineWired envSigBad Class.external ["/s/a/plugin.json"] [] = sigWired from rfl, hkeys1]; decide)
    (by decide) (by decide)
    (by
      intro d2 q hd2 hq hqid
      rw [show pipelineWired envSigBad Class.external ["/s/a/plugin.json"] [] = sigWired from rfl, hkeys1] at hd2
      simpa using hd2)
    (by rw [show pipelineWired envSigBad Class.external ["/s/a/plugin.json"] [] = sigWired from rfl, hkeys1]; decide)
    (by decide)
  have h2 := h.2.2.2 "/s/a" sigP2 hvk2
    (by rw [show pipelineWired envSigGood Class.external ["/s/a/plugin.json"] [] = sigWired2 from rfl, hkeys2]; decide)
    (by decide) (by decide) (by decide)
    (by
      intro d3 q3 hd3 hq3 hq3id
      rw [show pipelineWired envSigGood Class.external ["/s/a/plugin.json"] [] = sigWired2 from rfl, hkeys2] at hd3
      simpa using hd3)
    (by rw [show pipelineWired envSigGood Class.external ["/s/a/plugin.json"] [] = sigWired2 from rfl, hkeys2]; decide)
    (by decide)
  exact ⟨h.2.1, h.2.2.1, h2.1, h2.2⟩

end GrafanaLoader
